import Mathlib

/-!
Shallow embedding of `src/chaospy/genz_keister.py`:
the Hermite Genz-Keister quadrature rule tables (`gk16`, `gk18`, `gk22`,
`gk24`) and the multivariate tensor-product combinator (`gk`).

Real numbers produced by the code are modelled exactly:
* all tabulated constants are decimal literals, hence rationals;
* the only irrational operation, `x *= np.sqrt(2)`, is modelled by the
  computable carrier `RS`, where `⟨a, b⟩` stands for the real number
  `a + b * √2` (an injective representation, `√2` being irrational; see
  `RS.repr_injective`).
Python exceptions are modelled by `Except PyErr`.
-/

set_option maxRecDepth 100000

namespace GK

/-- An element `a + b * √2` of the subfield `ℚ(√2)` of the reals.  All
numbers flowing through the embedded code lie in this subfield: table
entries are rationals (`b = 0`) and `√2`-scaled abscissas are rational
multiples of `√2` (`a = 0`). -/
structure RS where
  a : ℚ
  b : ℚ
deriving DecidableEq

/-- Negation on `RS`, representing real negation. -/
def RS.neg (r : RS) : RS := ⟨-r.a, -r.b⟩

/-- `x * np.sqrt(2)` for a rational table entry `x`. -/
def scale (q : ℚ) : RS := ⟨0, q⟩

/-- The Python exceptions the embedded code can raise. -/
inductive PyErr where
  | indexError
  | typeError
  | attrError
  | nameError
deriving DecidableEq

/-- Python list indexing `l[i]`: a nonnegative index counts from the front,
a negative index `-len l ≤ i < 0` from the back (`l[len l + i]`), and
anything else raises `IndexError`. -/
def pyGet (l : List α) (i : ℤ) : Except PyErr α :=
  if 0 ≤ i then
    if h : i.toNat < l.length then .ok (l.get ⟨i.toNat, h⟩)
    else .error .indexError
  else
    if h : (-i).toNat ≤ l.length ∧ 0 < (-i).toNat then
      .ok (l.get ⟨l.length - (-i).toNat, by omega⟩)
    else .error .indexError
def gk16x1 : List ℚ := [0.0000000000000000e+00]

def gk16w1 : List ℚ := [1.7724538509055159e+00]

def gk16x3 : List ℚ := [-1.2247448713915889e+00, 0.0000000000000000e+00, 1.2247448713915889e+00]

def gk16w3 : List ℚ := [2.9540897515091930e-01, 1.1816359006036772e+00, 2.9540897515091930e-01]

def gk16x7 : List ℚ := [-2.9592107790638380e+00, -1.2247448713915889e+00, -5.2403354748695763e-01, 0.0000000000000000e+00, 5.2403354748695763e-01, 1.2247448713915889e+00, 2.9592107790638380e+00]

def gk16w7 : List ℚ := [1.2330680655153448e-03, 2.4557928535031393e-01, 2.3286251787386100e-01, 8.1310410832613500e-01, 2.3286251787386100e-01, 2.4557928535031393e-01, 1.2330680655153448e-03]

def gk16x9 : List ℚ := [-2.9592107790638380e+00, -2.0232301911005157e+00, -1.2247448713915889e+00, -5.2403354748695763e-01, 0.0000000000000000e+00, 5.2403354748695763e-01, 1.2247448713915889e+00, 2.0232301911005157e+00, 2.9592107790638380e+00]

def gk16w9 : List ℚ := [1.6708826306882348e-04, 1.4173117873979098e-02, 1.6811892894767771e-01, 4.7869428549114124e-01, 4.5014700975378197e-01, 4.7869428549114124e-01, 1.6811892894767771e-01, 1.4173117873979098e-02, 1.6708826306882348e-04]

def gk16x17 : List ℚ := [-4.4995993983103881e+00, -3.6677742159463378e+00, -2.9592107790638380e+00, -2.0232301911005157e+00, -1.8357079751751868e+00, -1.2247448713915889e+00, -8.7004089535290285e-01, -5.2403354748695763e-01, 0.0000000000000000e+00, 5.2403354748695763e-01, 8.7004089535290285e-01, 1.2247448713915889e+00, 1.8357079751751868e+00, 2.0232301911005157e+00, 2.9592107790638380e+00, 3.6677742159463378e+00, 4.4995993983103881e+00]

def gk16w17 : List ℚ := [3.7463469943051758e-08, -1.4542843387069391e-06, 1.8723818949278350e-04, 1.2466519132805918e-02, 3.4840719346803800e-03, 1.5718298376652240e-01, 2.5155825701712934e-02, 4.5119803602358544e-01, 4.7310733504965385e-01, 4.5119803602358544e-01, 2.5155825701712934e-02, 1.5718298376652240e-01, 3.4840719346803800e-03, 1.2466519132805918e-02, 1.8723818949278350e-04, -1.4542843387069391e-06, 3.7463469943051758e-08]

/- In the source, the `n == 19` branch of `gk16` never assigns `x[6]`
(it stays at the `np.zeros` value 0) and assigns `x[8]` twice
(first -8.7004089535290285e-1, then -5.2403354748695763e-1); the
list below is the resulting array. -/
def gk16x19 : List ℚ := [-4.4995993983103881e+00, -3.6677742159463378e+00, -2.9592107790638380e+00, -2.2665132620567876e+00, -2.0232301911005157e+00, -1.8357079751751868e+00, 0, -1.2247448713915889e+00, -5.2403354748695763e-01, 0.0000000000000000e+00, 5.2403354748695763e-01, 8.7004089535290285e-01, 1.2247448713915889e+00, 1.8357079751751868e+00, 2.0232301911005157e+00, 2.2665132620567876e+00, 2.9592107790638380e+00, 3.6677742159463378e+00, 4.4995993983103881e+00]

def gk16w19 : List ℚ := [1.5295717705322357e-09, 1.0802767206624762e-06, 1.0656589772852267e-04, 5.1133174390883855e-03, -1.1232438489069229e-02, 3.2055243099445879e-02, 1.1360729895748269e-01, 1.0838861955003017e-01, 3.6924643368920851e-01, 5.3788160700510168e-01, 3.6924643368920851e-01, 1.0838861955003017e-01, 1.1360729895748269e-01, 3.2055243099445879e-02, -1.1232438489069229e-02, 5.1133174390883855e-03, 1.0656589772852267e-04, 1.0802767206624762e-06, 1.5295717705322357e-09]

def gk16x31 : List ℚ := [-6.3759392709822356e+00, -5.6432578578857449e+00, -5.0360899444730940e+00, -4.4995993983103881e+00, -3.6677742159463378e+00, -2.9592107790638380e+00, -2.5705583765842968e+00, -2.2665132620567876e+00, -2.0232301911005157e+00, -1.8357079751751868e+00, -1.5794121348467671e+00, -1.2247448713915889e+00, -8.7004089535290285e-01, -5.2403354748695763e-01, -1.7606414208200893e-01, 0.0000000000000000e+00, 1.7606414208200893e-01, 5.2403354748695763e-01, 8.7004089535290285e-01, 1.2247448713915889e+00, 1.5794121348467671e+00, 1.8357079751751868e+00, 2.0232301911005157e+00, 2.2665132620567876e+00, 2.5705583765842968e+00, 2.9592107790638380e+00, 3.6677742159463378e+00, 4.4995993983103881e+00, 5.0360899444730940e+00, 5.6432578578857449e+00, 6.3759392709822356e+00]

def gk16w31 : List ℚ := [2.2365645607044459e-15, -2.6304696458548942e-13, 9.0675288231679823e-12, 1.4055252024722478e-09, 1.0889219692128120e-06, 1.0541662394746661e-04, 2.6665159778939428e-05, 4.8385208205502612e-03, -9.8566270434610019e-03, 2.9409427580350787e-02, 3.1210210352682834e-03, 1.0939325071860877e-01, 1.1594930984853116e-01, 3.5393889029580544e-01, 4.9855761893293160e-02, 4.5888839636756751e-01, 4.9855761893293160e-02, 3.5393889029580544e-01, 1.1594930984853116e-01, 1.0939325071860877e-01, 3.1210210352682834e-03, 2.9409427580350787e-02, -9.8566270434610019e-03, 4.8385208205502612e-03, 2.6665159778939428e-05, 1.0541662394746661e-04, 1.0889219692128120e-06, 1.4055252024722478e-09, 9.0675288231679823e-12, -2.6304696458548942e-13, 2.2365645607044459e-15]

def gk16x33 : List ℚ := [-6.3759392709822356e+00, -5.6432578578857449e+00, -5.0360899444730940e+00, -4.4995993983103881e+00, -4.0292201405043713e+00, -3.6677742159463378e+00, -2.9592107790638380e+00, -2.5705583765842968e+00, -2.2665132620567876e+00, -2.0232301911005157e+00, -1.8357079751751868e+00, -1.5794121348467671e+00, -1.2247448713915889e+00, -8.7004089535290285e-01, -5.2403354748695763e-01, -1.7606414208200893e-01, 0.0000000000000000e+00, 1.7606414208200893e-01, 5.2403354748695763e-01, 8.7004089535290285e-01, 1.2247448713915889e+00, 1.5794121348467671e+00, 1.8357079751751868e+00, 2.0232301911005157e+00, 2.2665132620567876e+00, 2.5705583765842968e+00, 2.9592107790638380e+00, 3.6677742159463378e+00, 4.0292201405043713e+00, 4.4995993983103881e+00, 5.0360899444730940e+00, 5.6432578578857449e+00, 6.3759392709822356e+00]

def gk16w33 : List ℚ := [-1.7602932805372496e-15, 4.7219278666417693e-13, -3.4281570530349562e-11, 2.7547825138935901e-09, -2.3903343382803510e-08, 1.2245220967158438e-06, 9.8710009197409173e-05, 1.4753204901862772e-04, 3.7580026604304793e-03, -4.9118576123877555e-03, 2.0435058359107205e-02, 1.3032872699027960e-02, 9.6913444944583621e-02, 1.3726521191567551e-01, 3.1208656194697448e-01, 1.8411696047725790e-01, 2.4656644932829619e-01, 1.8411696047725790e-01, 3.1208656194697448e-01, 1.3726521191567551e-01, 9.6913444944583621e-02, 1.3032872699027960e-02, 2.0435058359107205e-02, -4.9118576123877555e-03, 3.7580026604304793e-03, 1.4753204901862772e-04, 9.8710009197409173e-05, 1.2245220967158438e-06, -2.3903343382803510e-08, 2.7547825138935901e-09, -3.4281570530349562e-11, 4.7219278666417693e-13, -1.7602932805372496e-15]

def gk16x35 : List ℚ := [-6.3759392709822356e+00, -5.6432578578857449e+00, -5.0360899444730940e+00, -4.4995993983103881e+00, -4.0292201405043713e+00, -3.6677742159463378e+00, -3.3491639537131945e+00, -2.9592107790638380e+00, -2.5705583765842968e+00, -2.2665132620567876e+00, -2.0232301911005157e+00, -1.8357079751751868e+00, -1.5794121348467671e+00, -1.2247448713915889e+00, -8.7004089535290285e-01, -5.2403354748695763e-01, -1.7606414208200893e-01, 0.0000000000000000e+00, 1.7606414208200893e-01, 5.2403354748695763e-01, 8.7004089535290285e-01, 1.2247448713915889e+00, 1.5794121348467671e+00, 1.8357079751751868e+00, 2.0232301911005157e+00, 2.2665132620567876e+00, 2.5705583765842968e+00, 2.9592107790638380e+00, 3.3491639537131945e+00, 3.6677742159463378e+00, 4.0292201405043713e+00, 4.4995993983103881e+00, 5.0360899444730940e+00, 5.6432578578857449e+00, 6.3759392709822356e+00]

def gk16w35 : List ℚ := [1.8684014894510604e-18, 9.6599466278563243e-15, 5.4896836948499462e-12, 8.1553721816916897e-10, 3.7920222392319532e-08, 4.3737818040926989e-07, 4.8462799737020461e-06, 6.3328620805617891e-05, 4.8785399304443770e-04, 1.4515580425155904e-03, 4.0967527720344047e-03, 5.5928828911469180e-03, 2.7780508908535097e-02, 8.0245518147390893e-02, 1.6371221555735804e-01, 2.6244871488784277e-01, 3.3988595585585218e-01, 9.1262675363737921e-04, 3.3988595585585218e-01, 2.6244871488784277e-01, 1.6371221555735804e-01, 8.0245518147390893e-02, 2.7780508908535097e-02, 5.5928828911469180e-03, 4.0967527720344047e-03, 1.4515580425155904e-03, 4.8785399304443770e-04, 6.3328620805617891e-05, 4.8462799737020461e-06, 4.3737818040926989e-07, 3.7920222392319532e-08, 8.1553721816916897e-10, 5.4896836948499462e-12, 9.6599466278563243e-15, 1.8684014894510604e-18]

def gk16tab (o : ℕ) : List ℚ × List ℚ :=
  if o = 1 then (gk16x1, gk16w1)
  else if o = 3 then (gk16x3, gk16w3)
  else if o = 7 then (gk16x7, gk16w7)
  else if o = 9 then (gk16x9, gk16w9)
  else if o = 17 then (gk16x17, gk16w17)
  else if o = 19 then (gk16x19, gk16w19)
  else if o = 31 then (gk16x31, gk16w31)
  else if o = 33 then (gk16x33, gk16w33)
  else if o = 35 then (gk16x35, gk16w35)
  else (List.replicate o 0, List.replicate o 0)

def gk16orders : List ℕ := [1, 3, 7, 9, 17, 19, 31, 33, 35]

def gk18x1 : List ℚ := [0.0000000000000000e+00]

def gk18w1 : List ℚ := [1.7724538509055159e+00]

def gk18x3 : List ℚ := [-1.2247448713915889e+00, 0.0000000000000000e+00, 1.2247448713915889e+00]

def gk18w3 : List ℚ := [2.9540897515091930e-01, 1.1816359006036772e+00, 2.9540897515091930e-01]

def gk18x9 : List ℚ := [-2.9592107790638380e+00, -2.0232301911005157e+00, -1.2247448713915889e+00, -5.2403354748695763e-01, 0.0000000000000000e+00, 5.2403354748695763e-01, 1.2247448713915889e+00, 2.0232301911005157e+00, 2.9592107790638380e+00]

def gk18w9 : List ℚ := [1.6708826306882348e-04, 1.4173117873979098e-02, 1.6811892894767771e-01, 4.7869428549114124e-01, 4.5014700975378197e-01, 4.7869428549114124e-01, 1.6811892894767771e-01, 1.4173117873979098e-02, 1.6708826306882348e-04]

def gk18x19 : List ℚ := [-4.4995993983103881e+00, -3.6677742159463378e+00, -2.9592107790638380e+00, -2.2665132620567876e+00, -2.0232301911005157e+00, -1.8357079751751868e+00, -1.2247448713915889e+00, -8.7004089535290285e-01, -5.2403354748695763e-01, 0.0000000000000000e+00, 5.2403354748695763e-01, 8.7004089535290285e-01, 1.2247448713915889e+00, 1.8357079751751868e+00, 2.0232301911005157e+00, 2.2665132620567876e+00, 2.9592107790638380e+00, 3.6677742159463378e+00, 4.4995993983103881e+00]

def gk18w19 : List ℚ := [1.5295717705322357e-09, 1.0802767206624762e-06, 1.0656589772852267e-04, 5.1133174390883855e-03, -1.1232438489069229e-02, 3.2055243099445879e-02, 1.1360729895748269e-01, 1.0838861955003017e-01, 3.6924643368920851e-01, 5.3788160700510168e-01, 3.6924643368920851e-01, 1.0838861955003017e-01, 1.1360729895748269e-01, 3.2055243099445879e-02, -1.1232438489069229e-02, 5.1133174390883855e-03, 1.0656589772852267e-04, 1.0802767206624762e-06, 1.5295717705322357e-09]

def gk18x37 : List ℚ := [-6.853200069757519, -6.124527854622158, -5.521865209868350, -4.986551454150765, -4.499599398310388, -4.057956316089741, -3.667774215946338, -3.315584617593290, -2.959210779063838, -2.597288631188366, -2.266513262056788, -2.023230191100516, -1.835707975175187, -1.561553427651873, -1.224744871391589, -0.870040895352903, -0.524033547486958, -0.214618180588171, 0.000000000000000, 0.214618180588171, 0.524033547486958, 0.870040895352903, 1.224744871391589, 1.561553427651873, 1.835707975175187, 2.023230191100516, 2.266513262056788, 2.597288631188366, 2.959210779063838, 3.315584617593290, 3.667774215946338, 4.057956316089741, 4.499599398310388, 4.986551454150765, 5.521865209868350, 6.124527854622158, 6.853200069757519]

def gk18w37 : List ℚ := [0.19030350940130498e-20, 0.187781893143728947e-16, 0.182242751549129356e-13, 0.45661763676186859e-11, 0.422525843963111041e-09, 0.16595448809389819e-07, 0.295907520230744049e-06, 0.330975870979203419e-05, 0.32265185983739747e-04, 0.234940366465975222e-03, 0.985827582996483824e-03, 0.176802225818295443e-02, 0.43334988122723492e-02, 0.15513109874859354e-01, 0.442116442189845444e-01, 0.937208280655245902e-01, 0.143099302896833389e+00, 0.147655710402686249e+00, 0.968824552928425499e-01, 0.147655710402686249e+00, 0.143099302896833389e+00, 0.937208280655245902e-01, 0.442116442189845444e-01, 0.15513109874859354e-01, 0.43334988122723492e-02, 0.176802225818295443e-02, 0.985827582996483824e-03, 0.234940366465975222e-03, 0.32265185983739747e-04, 0.330975870979203419e-05, 0.295907520230744049e-06, 0.16595448809389819e-07, 0.422525843963111041e-09, 0.45661763676186859e-11, 0.182242751549129356e-13, 0.187781893143728947e-16, 0.19030350940130498e-20]

def gk18tab (o : ℕ) : List ℚ × List ℚ :=
  if o = 1 then (gk18x1, gk18w1)
  else if o = 3 then (gk18x3, gk18w3)
  else if o = 9 then (gk18x9, gk18w9)
  else if o = 19 then (gk18x19, gk18w19)
  else if o = 37 then (gk18x37, gk18w37)
  else (List.replicate o 0, List.replicate o 0)

def gk18orders : List ℕ := [1, 3, 9, 19, 37]

def gk22x1 : List ℚ := [0.0000000000000000]

def gk22w1 : List ℚ := [1.7724538509055159e+00]

def gk22x3 : List ℚ := [-1.2247448713915889, 0.0000000000000000, 1.2247448713915889]

def gk22w3 : List ℚ := [2.9540897515091930e-01, 1.1816359006036772e+00, 2.9540897515091930e-01]

def gk22x9 : List ℚ := [-2.9592107790638380, -2.0232301911005157, -1.2247448713915889, -0.52403354748695763, 0.0000000000000000, 0.52403354748695763, 1.2247448713915889, 2.0232301911005157, 2.9592107790638380]

def gk22w9 : List ℚ := [1.6708826306882348e-04, 1.4173117873979098e-02, 1.6811892894767771e-01, 4.7869428549114124e-01, 4.5014700975378197e-01, 4.7869428549114124e-01, 1.6811892894767771e-01, 1.4173117873979098e-02, 1.6708826306882348e-04]

def gk22x19 : List ℚ := [-4.4995993983103881, -3.6677742159463378, -2.9592107790638380, -2.2665132620567876, -2.0232301911005157, -1.8357079751751868, -1.2247448713915889, -0.87004089535290285, -0.52403354748695763, 0.0000000000000000, 0.52403354748695763, 0.87004089535290285, 1.2247448713915889, 1.8357079751751868, 2.0232301911005157, 2.2665132620567876, 2.9592107790638380, 3.6677742159463378, 4.4995993983103881]

def gk22w19 : List ℚ := [1.5295717705322357e-09, 1.0802767206624762e-06, 1.0656589772852267e-04, 5.1133174390883855e-03, -1.1232438489069229e-02, 3.2055243099445879e-02, 1.1360729895748269e-01, 1.0838861955003017e-01, 3.6924643368920851e-01, 5.3788160700510168e-01, 3.6924643368920851e-01, 1.0838861955003017e-01, 1.1360729895748269e-01, 3.2055243099445879e-02, -1.1232438489069229e-02, 5.1133174390883855e-03, 1.0656589772852267e-04, 1.0802767206624762e-06, 1.5295717705322357e-09]

def gk22x41 : List ℚ := [-7.251792998192644, -6.547083258397540, -5.961461043404500, -5.437443360177798, -4.953574342912980, -4.4995993983103881, -4.070919267883068, -3.6677742159463378, -3.296114596212218, -2.9592107790638380, -2.630415236459871, -2.2665132620567876, -2.043834754429505, -2.0232301911005157, -1.8357079751751868, -1.585873011819188, -1.2247448713915889, -0.87004089535290285, -0.52403354748695763, -0.195324784415805, 0.0000000000000000, 0.195324784415805, 0.52403354748695763, 0.87004089535290285, 1.2247448713915889, 1.585873011819188, 1.8357079751751868, 2.0232301911005157, 2.043834754429505, 2.2665132620567876, 2.630415236459871, 2.9592107790638380, 3.296114596212218, 3.6677742159463378, 4.070919267883068, 4.4995993983103881, 4.953574342912980, 5.437443360177798, 5.961461043404500, 6.547083258397540, 7.251792998192644]

def gk22w41 : List ℚ := [0.664195893812757801e-23, 0.860427172512207236e-19, 0.1140700785308509e-15, 0.408820161202505983e-13, 0.581803393170320419e-11, 0.400784141604834759e-09, 0.149158210417831408e-07, 0.315372265852264871e-06, 0.381182791749177506e-05, 0.288976780274478689e-04, 0.189010909805097887e-03, 0.140697424065246825e-02, -0.144528422206988237e-01, 0.178852543033699732e-01, 0.705471110122962612e-03, 0.165445526705860772e-01, 0.45109010335859128e-01, 0.928338228510111845e-01, 0.145966293895926429e+00, 0.165639740400529554e+00, 0.562793426043218877e-01, 0.165639740400529554e+00, 0.145966293895926429e+00, 0.928338228510111845e-01, 0.45109010335859128e-01, 0.165445526705860772e-01, 0.705471110122962612e-03, 0.178852543033699732e-01, -0.144528422206988237e-01, 0.140697424065246825e-02, 0.189010909805097887e-03, 0.288976780274478689e-04, 0.381182791749177506e-05, 0.315372265852264871e-06, 0.149158210417831408e-07, 0.400784141604834759e-09, 0.581803393170320419e-11, 0.408820161202505983e-13, 0.1140700785308509e-15, 0.860427172512207236e-19, 0.664195893812757801e-23]

def gk22tab (o : ℕ) : List ℚ × List ℚ :=
  if o = 1 then (gk22x1, gk22w1)
  else if o = 3 then (gk22x3, gk22w3)
  else if o = 9 then (gk22x9, gk22w9)
  else if o = 19 then (gk22x19, gk22w19)
  else if o = 41 then (gk22x41, gk22w41)
  else (List.replicate o 0, List.replicate o 0)

def gk22orders : List ℕ := [1, 3, 9, 19, 41]

def gk24x1 : List ℚ := [0.0000000000000000]

def gk24w1 : List ℚ := [1.7724538509055159e+00]

def gk24x3 : List ℚ := [-1.2247448713915889, 0.0000000000000000, 1.2247448713915889]

def gk24w3 : List ℚ := [2.9540897515091930e-01, 1.1816359006036772e+00, 2.9540897515091930e-01]

def gk24x9 : List ℚ := [-2.9592107790638380, -2.0232301911005157, -1.2247448713915889, -0.52403354748695763, 0.0000000000000000, 0.52403354748695763, 1.2247448713915889, 2.0232301911005157, 2.9592107790638380]

def gk24w9 : List ℚ := [1.6708826306882348e-04, 1.4173117873979098e-02, 1.6811892894767771e-01, 4.7869428549114124e-01, 4.5014700975378197e-01, 4.7869428549114124e-01, 1.6811892894767771e-01, 1.4173117873979098e-02, 1.6708826306882348e-04]

def gk24x19 : List ℚ := [-4.4995993983103881, -3.6677742159463378, -2.9592107790638380, -2.2665132620567876, -2.0232301911005157, -1.8357079751751868, -1.2247448713915889, -0.87004089535290285, -0.52403354748695763, 0.0000000000000000, 0.52403354748695763, 0.87004089535290285, 1.2247448713915889, 1.8357079751751868, 2.0232301911005157, 2.2665132620567876, 2.9592107790638380, 3.6677742159463378, 4.4995993983103881]

def gk24w19 : List ℚ := [1.5295717705322357e-09, 1.0802767206624762e-06, 1.0656589772852267e-04, 5.1133174390883855e-03, -1.1232438489069229e-02, 3.2055243099445879e-02, 1.1360729895748269e-01, 1.0838861955003017e-01, 3.6924643368920851e-01, 5.3788160700510168e-01, 3.6924643368920851e-01, 1.0838861955003017e-01, 1.1360729895748269e-01, 3.2055243099445879e-02, -1.1232438489069229e-02, 5.1133174390883855e-03, 1.0656589772852267e-04, 1.0802767206624762e-06, 1.5295717705322357e-09]

def gk24x43 : List ℚ := [-10.167574994881873, -7.231746029072501, -6.535398426382995, -5.954781975039809, -5.434053000365068, -4.952329763008589, -4.4995993983103881, -4.071335874253583, -3.6677742159463378, -3.295265921534226, -2.9592107790638380, -2.633356763661946, -2.2665132620567876, -2.089340389294661, -2.0232301911005157, -1.8357079751751868, -1.583643465293944, -1.2247448713915889, -0.87004089535290285, -0.52403354748695763, -0.196029453662011, 0.0000000000000000, 0.196029453662011, 0.52403354748695763, 0.87004089535290285, 1.2247448713915889, 1.583643465293944, 1.8357079751751868, 2.0232301911005157, 2.089340389294661, 2.2665132620567876, 2.633356763661946, 2.9592107790638380, 3.295265921534226, 3.6677742159463378, 4.071335874253583, 4.4995993983103881, 4.952329763008589, 5.434053000365068, 5.954781975039809, 6.535398426382995, 7.231746029072501, 10.167574994881873]

def gk24w43 : List ℚ := [0.546191947478318097e-37, 0.87544909871323873e-23, 0.992619971560149097e-19, 0.122619614947864357e-15, 0.421921851448196032e-13, 0.586915885251734856e-11, 0.400030575425776948e-09, 0.148653643571796457e-07, 0.316018363221289247e-06, 0.383880761947398577e-05, 0.286802318064777813e-04, 0.184789465688357423e-03, 0.150909333211638847e-02, -0.38799558623877157e-02, 0.67354758901013295e-02, 0.139966252291568061e-02, 0.163616873493832402e-01, 0.450612329041864976e-01, 0.928711584442575456e-01, 0.145863292632147353e+00, 0.164880913687436689e+00, 0.579595986101181095e-01, 0.164880913687436689e+00, 0.145863292632147353e+00, 0.928711584442575456e-01, 0.450612329041864976e-01, 0.163616873493832402e-01, 0.139966252291568061e-02, 0.67354758901013295e-02, -0.38799558623877157e-02, 0.150909333211638847e-02, 0.184789465688357423e-03, 0.286802318064777813e-04, 0.383880761947398577e-05, 0.316018363221289247e-06, 0.148653643571796457e-07, 0.400030575425776948e-09, 0.586915885251734856e-11, 0.421921851448196032e-13, 0.122619614947864357e-15, 0.992619971560149097e-19, 0.87544909871323873e-23, 0.546191947478318097e-37]

def gk24tab (o : ℕ) : List ℚ × List ℚ :=
  if o = 1 then (gk24x1, gk24w1)
  else if o = 3 then (gk24x3, gk24w3)
  else if o = 9 then (gk24x9, gk24w9)
  else if o = 19 then (gk24x19, gk24w19)
  else if o = 43 then (gk24x43, gk24w43)
  else (List.replicate o 0, List.replicate o 0)

def gk24orders : List ℕ := [1, 3, 9, 19, 43]

/-- `hermite_gk16_set`: resolve the order by Python indexing into the level
list `[1,3,7,9,17,19,31,33,35]`, fill the matching tabulated branch (an
unmatched order would leave the `np.zeros` arrays untouched), then divide
every weight by the weight sum (`w /= np.sum(w)`) and multiply every
abscissa by `√2` (`x *= np.sqrt(2)`). -/
def gk16 (n : ℤ) : Except PyErr (List RS × List ℚ) := do
  let o ← pyGet gk16orders n
  let t := gk16tab o
  .ok (t.1.map scale, t.2.map (fun q => q / t.2.sum))

/-- `hermite_gk18_set`, levels `[1,3,9,19,37]`; same post-processing as
`gk16`. -/
def gk18 (n : ℤ) : Except PyErr (List RS × List ℚ) := do
  let o ← pyGet gk18orders n
  let t := gk18tab o
  .ok (t.1.map scale, t.2.map (fun q => q / t.2.sum))

/-- `hermite_gk22_set`, levels `[1,3,9,19,41]`; same post-processing as
`gk16`. -/
def gk22 (n : ℤ) : Except PyErr (List RS × List ℚ) := do
  let o ← pyGet gk22orders n
  let t := gk22tab o
  .ok (t.1.map scale, t.2.map (fun q => q / t.2.sum))

/-- `hermite_gk24_set`, levels `[1,3,9,19,43]`; same post-processing as
`gk16`. -/
def gk24 (n : ℤ) : Except PyErr (List RS × List ℚ) := do
  let o ← pyGet gk24orders n
  let t := gk24tab o
  .ok (t.1.map scale, t.2.map (fun q => q / t.2.sum))

/-- `foo = eval("gk" + str(rule)); foo(order)`: dispatch on the rule-family
selector, raising `NameError` for an unknown family. -/
def gkRule (rule : ℕ) (o : ℤ) : Except PyErr (List RS × List ℚ) :=
  if rule = 16 then gk16 o
  else if rule = 18 then gk18 o
  else if rule = 22 then gk22 o
  else if rule = 24 then gk24 o
  else .error .nameError

/-- External collaborator: a one-dimensional distribution, used only through
its inverse CDF `inv`.  `V` is the codomain of the external `ndtr` (the
standard normal CDF, also a collaborator, passed as a parameter) and `W`
the distribution's own domain. -/
structure Dist (V W : Type) where
  inv : V → W

/-- The `order` argument of `gk`: either a single Python int or a list of
ints (`isinstance(order, int)` distinguishes the two). -/
inductive PyOrder where
  | int (o : ℤ)
  | list (os : List ℤ)

/-- A Python list comprehension whose body may raise: elements are produced
left to right and the first exception aborts the whole comprehension. -/
def mapEx (f : α → Except PyErr β) : List α → Except PyErr (List β)
  | [] => .ok []
  | x :: xs => do
    let y ← f x
    let ys ← mapEx f xs
    .ok (y :: ys)

/-- Modelled from the spec: `combine` is imported from `chaospy.utils`,
which is not under `src/`.  Per the spec (§4.2, §9) it forms the full
Cartesian cross-product of the given per-dimension sequences — one output
row per combination of one element from each input sequence, every
combination appearing exactly once, in a fixed enumeration order (first
sequence slowest) that is the same for every call. -/
def combine : List (List α) → List (List α)
  | [] => [[]]
  | l :: ls => l.flatMap (fun x => (combine ls).map (x :: ·))

/-- numpy transpose `A.T` of the rectangular array produced by `combine`:
entry `(i, j)` of the result is entry `(j, i)` of the input. -/
def npT (L : List (List α)) : List (List α) :=
  (List.range (L.headD []).length).map (fun i => L.filterMap (fun r => r[i]?))

/-- Terminal (single-distribution) branch of `gk`: resolve the
one-dimensional rule (`[1,3,...][order]` raises `TypeError` when `order`
is a list), push each abscissa through `dist.inv(ndtr(x))` and reshape into
a 1×N matrix; the weights are returned unchanged. -/
def gk1 (ndtr : RS → V) (rule : ℕ) (order : PyOrder) (d : Dist V W) :
    Except PyErr (List (List W) × List ℚ) := do
  let xw ← (match order with
    | .int o => gkRule rule o
    | .list _ => .error .typeError)
  .ok ([xw.1.map (fun t => d.inv (ndtr t))], xw.2)

/-- The multivariate combinator `gk(order, dist, rule=24)`.  In the source
the multi-dimensional branch calls `gk` recursively with a single
distribution; every such call takes the terminal branch, so the recursion
(exactly one level deep, cf. spec §4.2) is modelled by calls to `gk1`.
With a list `order`, dimension `i` uses `order[i]` and `dist[i]` (Python
indexing, so a too-short order list raises `IndexError` and extra entries
are ignored).  The per-dimension first node rows are crossed with
`combine` and transposed; the per-dimension weight vectors are crossed
with `combine` and multiplied along each row (`np.prod(..., -1)`).  With
zero or one distribution the terminal branch runs; `dist.inv` on a list of
distributions (rather than one) raises `AttributeError` — the source
reaches that arm only with an empty list, after `foo(order)` has run. -/
def gk (ndtr : RS → V) (rule : ℕ) (order : PyOrder) (dists : List (Dist V W)) :
    Except PyErr (List (List W) × List ℚ) :=
  if 1 < dists.length then do
    let xw ← (match order with
      | .int o => mapEx (fun d => gk1 ndtr rule (.int o) d) dists
      | .list os => mapEx (fun i : ℕ => do
          let oi ← pyGet os (i : ℤ)
          let di ← pyGet dists (i : ℤ)
          gk1 ndtr rule (.int oi) di) (List.range dists.length))
    let xs ← mapEx (fun p => pyGet p.1 0) xw
    .ok (npT (combine xs), (combine (xw.map Prod.snd)).map List.prod)
  else
    match dists with
    | [d] => gk1 ndtr rule order d
    | _ => do
      let _ ← (match order with
        | .int o => gkRule rule o
        | .list _ => .error .typeError)
      .error .attrError

/-- The per-dimension order the combinator resolves for dimension `i`. -/
def orderAt : PyOrder → ℕ → PyOrder
  | .int o, _ => .int o
  | .list os, i => .int (os.getD i 0)

/-! ### Basic facts about the error monad and Python indexing -/

instance [DecidableEq ε] [DecidableEq α] : DecidableEq (Except ε α) := fun x y =>
  match x, y with
  | .ok a, .ok b => decidable_of_iff (a = b) (by simp)
  | .ok _, .error _ => isFalse (by simp)
  | .error _, .ok _ => isFalse (by simp)
  | .error e, .error f => decidable_of_iff (e = f) (by simp)

/-- Whether an embedded computation finished without raising. -/
def okB : Except PyErr α → Bool
  | .ok _ => true
  | .error _ => false

theorem bind_ok_iff {e : Except PyErr α} {f : α → Except PyErr β} {b : β} :
    (e >>= f) = .ok b ↔ ∃ a, e = .ok a ∧ f a = .ok b := by
  cases e <;> simp [Bind.bind, Except.bind]

theorem okB_bind_pure {e : Except PyErr α} {f : α → β} :
    okB (e >>= fun a => Except.ok (f a)) = okB e := by
  cases e <;> rfl

theorem pyGet_ok_mem {l : List α} {i : ℤ} {a : α} (h : pyGet l i = .ok a) :
    a ∈ l := by
  unfold pyGet at h
  split at h
  · split at h
    · exact (Except.ok.injEq _ _).mp h ▸ List.get_mem _ _ _
    · simp at h
  · split at h
    · exact (Except.ok.injEq _ _).mp h ▸ List.get_mem _ _ _
    · simp at h

theorem pyGet_okB (l : List α) (i : ℤ) :
    okB (pyGet l i) = true ↔ (-(l.length : ℤ) ≤ i ∧ i < l.length) := by
  unfold pyGet
  split <;> rename_i h0
  · split <;> rename_i h1
    · simp [okB]; omega
    · simp [okB]; omega
  · split <;> rename_i h1
    · simp [okB]; omega
    · simp [okB]; omega

theorem pyGet_neg {l : List α} {i : ℤ} (h1 : -(l.length : ℤ) ≤ i) (h2 : i < 0) :
    pyGet l i = pyGet l ((l.length : ℤ) + i) := by
  unfold pyGet
  have hk : ((-i).toNat ≤ l.length ∧ 0 < (-i).toNat) := by omega
  have h3 : ¬ (0 ≤ i) := by omega
  have h4 : (0 : ℤ) ≤ (l.length : ℤ) + i := by omega
  have h5 : ((l.length : ℤ) + i).toNat < l.length := by omega
  rw [if_neg h3, dif_pos hk, if_pos h4, dif_pos h5]
  exact congrArg Except.ok (congrArg l.get (by simp only [Fin.mk.injEq]; omega))

theorem pyGet_nat {l : List α} {i : ℕ} (h : i < l.length) :
    pyGet l (i : ℤ) = .ok (l.get ⟨i, h⟩) := by
  unfold pyGet
  rw [if_pos (by omega), dif_pos (by simpa using h)]
  exact congrArg Except.ok (congrArg l.get (by simp only [Fin.mk.injEq]; omega))

/-! ### Normalization: dividing a list by its sum gives unit sum -/

theorem sum_map_mul_const (l : List ℚ) (c : ℚ) :
    (l.map (fun q => q * c)).sum = l.sum * c := by
  induction l with
  | nil => simp
  | cons a t ih => simp [ih, add_mul]

theorem sum_map_div_sum {l : List ℚ} (h : l.sum ≠ 0) :
    (l.map (fun q => q / l.sum)).sum = 1 := by
  simp only [div_eq_mul_inv]
  rw [sum_map_mul_const, mul_inv_cancel₀ h]

/-! ### Per-family facts -/

theorem gk16tab_sum_ne : ∀ o ∈ gk16orders, (gk16tab o).2.sum ≠ 0 := by with_unfolding_all decide

theorem gk18tab_sum_ne : ∀ o ∈ gk18orders, (gk18tab o).2.sum ≠ 0 := by with_unfolding_all decide

theorem gk22tab_sum_ne : ∀ o ∈ gk22orders, (gk22tab o).2.sum ≠ 0 := by with_unfolding_all decide

theorem gk24tab_sum_ne : ∀ o ∈ gk24orders, (gk24tab o).2.sum ≠ 0 := by with_unfolding_all decide

theorem gk16tab_len : ∀ o ∈ gk16orders, (gk16tab o).1.length = (gk16tab o).2.length := by
  with_unfolding_all decide

theorem gk18tab_len : ∀ o ∈ gk18orders, (gk18tab o).1.length = (gk18tab o).2.length := by
  with_unfolding_all decide

theorem gk22tab_len : ∀ o ∈ gk22orders, (gk22tab o).1.length = (gk22tab o).2.length := by
  with_unfolding_all decide

theorem gk24tab_len : ∀ o ∈ gk24orders, (gk24tab o).1.length = (gk24tab o).2.length := by
  with_unfolding_all decide

theorem gk16_ok_sum {n : ℤ} {p : List RS × List ℚ} (h : gk16 n = .ok p) :
    p.2.sum = 1 := by
  unfold gk16 at h
  rw [bind_ok_iff] at h
  obtain ⟨o, h1, h2⟩ := h
  obtain rfl : _ = p := (Except.ok.injEq _ _).mp h2
  exact sum_map_div_sum (gk16tab_sum_ne o (pyGet_ok_mem h1))

theorem gk18_ok_sum {n : ℤ} {p : List RS × List ℚ} (h : gk18 n = .ok p) :
    p.2.sum = 1 := by
  unfold gk18 at h
  rw [bind_ok_iff] at h
  obtain ⟨o, h1, h2⟩ := h
  obtain rfl : _ = p := (Except.ok.injEq _ _).mp h2
  exact sum_map_div_sum (gk18tab_sum_ne o (pyGet_ok_mem h1))

theorem gk22_ok_sum {n : ℤ} {p : List RS × List ℚ} (h : gk22 n = .ok p) :
    p.2.sum = 1 := by
  unfold gk22 at h
  rw [bind_ok_iff] at h
  obtain ⟨o, h1, h2⟩ := h
  obtain rfl : _ = p := (Except.ok.injEq _ _).mp h2
  exact sum_map_div_sum (gk22tab_sum_ne o (pyGet_ok_mem h1))

theorem gk24_ok_sum {n : ℤ} {p : List RS × List ℚ} (h : gk24 n = .ok p) :
    p.2.sum = 1 := by
  unfold gk24 at h
  rw [bind_ok_iff] at h
  obtain ⟨o, h1, h2⟩ := h
  obtain rfl : _ = p := (Except.ok.injEq _ _).mp h2
  exact sum_map_div_sum (gk24tab_sum_ne o (pyGet_ok_mem h1))

theorem gk16_ok_len {n : ℤ} {p : List RS × List ℚ} (h : gk16 n = .ok p) :
    p.1.length = p.2.length := by
  unfold gk16 at h
  rw [bind_ok_iff] at h
  obtain ⟨o, h1, h2⟩ := h
  obtain rfl : _ = p := (Except.ok.injEq _ _).mp h2
  simpa using gk16tab_len o (pyGet_ok_mem h1)

theorem gk18_ok_len {n : ℤ} {p : List RS × List ℚ} (h : gk18 n = .ok p) :
    p.1.length = p.2.length := by
  unfold gk18 at h
  rw [bind_ok_iff] at h
  obtain ⟨o, h1, h2⟩ := h
  obtain rfl : _ = p := (Except.ok.injEq _ _).mp h2
  simpa using gk18tab_len o (pyGet_ok_mem h1)

theorem gk22_ok_len {n : ℤ} {p : List RS × List ℚ} (h : gk22 n = .ok p) :
    p.1.length = p.2.length := by
  unfold gk22 at h
  rw [bind_ok_iff] at h
  obtain ⟨o, h1, h2⟩ := h
  obtain rfl : _ = p := (Except.ok.injEq _ _).mp h2
  simpa using gk22tab_len o (pyGet_ok_mem h1)

theorem gk24_ok_len {n : ℤ} {p : List RS × List ℚ} (h : gk24 n = .ok p) :
    p.1.length = p.2.length := by
  unfold gk24 at h
  rw [bind_ok_iff] at h
  obtain ⟨o, h1, h2⟩ := h
  obtain rfl : _ = p := (Except.ok.injEq _ _).mp h2
  simpa using gk24tab_len o (pyGet_ok_mem h1)

theorem gkRule_ok_sum {rule : ℕ} {o : ℤ} {p : List RS × List ℚ}
    (h : gkRule rule o = .ok p) : p.2.sum = 1 := by
  unfold gkRule at h
  split at h
  · exact gk16_ok_sum h
  split at h
  · exact gk18_ok_sum h
  split at h
  · exact gk22_ok_sum h
  split at h
  · exact gk24_ok_sum h
  · simp at h

theorem gkRule_ok_len {rule : ℕ} {o : ℤ} {p : List RS × List ℚ}
    (h : gkRule rule o = .ok p) : p.1.length = p.2.length := by
  unfold gkRule at h
  split at h
  · exact gk16_ok_len h
  split at h
  · exact gk18_ok_len h
  split at h
  · exact gk22_ok_len h
  split at h
  · exact gk24_ok_len h
  · simp at h

/-! ### Claim C3 -/

/-- C3: for every rule family (`gk16`, `gk18`, `gk22`, `gk24`) and every
supported level, the weight vector returned by the rule-table function sums
to exactly 1, because every weight is divided by the sum of all weights of
that rule before returning. -/
theorem oneDim_weights_sum_one :
    ∀ (n : ℤ) (p : List RS × List ℚ),
      (gk16 n = .ok p ∨ gk18 n = .ok p ∨ gk22 n = .ok p ∨ gk24 n = .ok p) →
      p.2.sum = 1 := by
  rintro n p (h | h | h | h)
  exacts [gk16_ok_sum h, gk18_ok_sum h, gk22_ok_sum h, gk24_ok_sum h]

/-- Witness for C3 at family `gk16`, level 0 (the order-1 rule). -/
theorem oneDim_weights_sum_one_witness :
    (([⟨0, 0⟩], [1]) : List RS × List ℚ).2.sum = 1 :=
  oneDim_weights_sum_one 0 ([⟨0, 0⟩], [1])
    (Or.inl (by with_unfolding_all decide))

/-! ### Claim C7 -/

/-- C7 counterexample: the level index `-1` does not raise: it is silently
accepted (Python negative indexing into the level list), contradicting the
claim that every negative level index fails with InvalidLevel. -/
theorem gk16_neg_level_ok : okB (gk16 (-1)) = true := by
  with_unfolding_all decide

/-- C7 amended: a level index `n` succeeds iff `-K ≤ n < K` (`K` the
family's number of levels): indices `n ≥ K` or `n < -K` raise `IndexError`
(the InvalidLevel failure), valid indices `0 ≤ n < K` succeed, but negative
indices `-K ≤ n ≤ -1` are also silently accepted rather than failing. -/
theorem level_validity_amended :
    ∀ n : ℤ,
      (okB (gk16 n) = true ↔ (-9 ≤ n ∧ n < 9)) ∧
      (okB (gk18 n) = true ↔ (-5 ≤ n ∧ n < 5)) ∧
      (okB (gk22 n) = true ↔ (-5 ≤ n ∧ n < 5)) ∧
      (okB (gk24 n) = true ↔ (-5 ≤ n ∧ n < 5)) := by
  intro n
  refine ⟨?_, ?_, ?_, ?_⟩
  · unfold gk16
    rw [okB_bind_pure, pyGet_okB]
    norm_num [gk16orders]
  · unfold gk18
    rw [okB_bind_pure, pyGet_okB]
    norm_num [gk18orders]
  · unfold gk22
    rw [okB_bind_pure, pyGet_okB]
    norm_num [gk22orders]
  · unfold gk24
    rw [okB_bind_pure, pyGet_okB]
    norm_num [gk24orders]

/-! ### Claim C9 -/

/-- C9: a negative level index `-K ≤ n ≤ -1` (`K` the family's number of
levels) is silently accepted and returns the rule for level `K + n`,
because the level list is indexed with Python semantics. -/
theorem negative_level_wraps :
    ∀ n : ℤ,
      (-9 ≤ n → n < 0 → gk16 n = gk16 (9 + n)) ∧
      (-5 ≤ n → n < 0 →
        gk18 n = gk18 (5 + n) ∧ gk22 n = gk22 (5 + n) ∧ gk24 n = gk24 (5 + n)) := by
  intro n
  constructor
  · intro h1 h2
    have hl : ((gk16orders.length : ℕ) : ℤ) = 9 := by norm_num [gk16orders]
    unfold gk16
    rw [pyGet_neg (by omega) h2, hl]
  · intro h1 h2
    refine ⟨?_, ?_, ?_⟩
    · have hl : ((gk18orders.length : ℕ) : ℤ) = 5 := by norm_num [gk18orders]
      unfold gk18
      rw [pyGet_neg (by omega) h2, hl]
    · have hl : ((gk22orders.length : ℕ) : ℤ) = 5 := by norm_num [gk22orders]
      unfold gk22
      rw [pyGet_neg (by omega) h2, hl]
    · have hl : ((gk24orders.length : ℕ) : ℤ) = 5 := by norm_num [gk24orders]
      unfold gk24
      rw [pyGet_neg (by omega) h2, hl]

/-- Witness for C9 at `n = -1`: each family returns its deepest rule. -/
theorem negative_level_wraps_witness :
    gk16 (-1) = gk16 8 ∧ gk18 (-1) = gk18 4 ∧
    gk22 (-1) = gk22 4 ∧ gk24 (-1) = gk24 4 := by
  have h1 := (negative_level_wraps (-1)).1 (by norm_num) (by norm_num)
  have h2 := (negative_level_wraps (-1)).2 (by norm_num) (by norm_num)
  norm_num at h1 h2
  exact ⟨h1, h2.1, h2.2.1, h2.2.2⟩

/-! ### Claim C10 -/

theorem family_branch_aux (orders : List ℕ) (tab : ℕ → List ℚ × List ℚ)
    (gkF : ℤ → Except PyErr (List RS × List ℚ))
    (hgk : ∀ m : ℤ, gkF m = do
      let o ← pyGet orders m
      let t := tab o
      Except.ok (t.1.map scale, t.2.map (fun q => q / t.2.sum)))
    (hsum : ∀ o ∈ orders, (tab o).2.sum ≠ 0)
    {n : ℤ} (h0 : 0 ≤ n) (h1 : n < orders.length) :
    ∃ o, pyGet orders n = .ok o ∧ o ∈ orders ∧ (tab o).2.sum ≠ 0 ∧
      ∃ p, gkF n = .ok p ∧ p.2.sum = 1 ∧ p.2 ≠ List.replicate p.2.length 0 := by
  have hn : n.toNat < orders.length := by omega
  have hpy : pyGet orders n = .ok (orders.get ⟨n.toNat, hn⟩) := by
    have := pyGet_nat hn
    rwa [show ((n.toNat : ℕ) : ℤ) = n by omega] at this
  have hmem : orders.get ⟨n.toNat, hn⟩ ∈ orders := List.get_mem _ _ _
  refine ⟨orders.get ⟨n.toNat, hn⟩, hpy, hmem, hsum _ hmem, ?_⟩
  set o := orders.get ⟨n.toNat, hn⟩ with ho
  refine ⟨((tab o).1.map scale, (tab o).2.map (fun q => q / (tab o).2.sum)),
    ?_, ?_, ?_⟩
  · rw [hgk n, hpy]
    rfl
  · exact sum_map_div_sum (hsum _ hmem)
  · intro h
    have h2 := congrArg List.sum h
    rw [show (((tab o).1.map scale, (tab o).2.map
      (fun q => q / (tab o).2.sum)).2) = (tab o).2.map (fun q => q / (tab o).2.sum) from rfl,
      sum_map_div_sum (hsum _ hmem)] at h2
    simp [List.sum_replicate] at h2

/-- C10: for every rule family and every valid level index `0 ≤ n < K`, the
resolved order matches a table branch (it is one of the family's tabulated
orders and its raw weight vector has nonzero sum), so the final
normalization never divides by zero and the returned weight vector (which
sums to 1) is not the all-zeros placeholder. -/
theorem valid_level_branch_nonzero :
    ∀ n : ℤ,
      (0 ≤ n → n < 9 →
        ∃ o, pyGet gk16orders n = .ok o ∧ o ∈ gk16orders ∧
          (gk16tab o).2.sum ≠ 0 ∧
          ∃ p, gk16 n = .ok p ∧ p.2.sum = 1 ∧
            p.2 ≠ List.replicate p.2.length 0) ∧
      (0 ≤ n → n < 5 →
        (∃ o, pyGet gk18orders n = .ok o ∧ o ∈ gk18orders ∧
          (gk18tab o).2.sum ≠ 0 ∧
          ∃ p, gk18 n = .ok p ∧ p.2.sum = 1 ∧
            p.2 ≠ List.replicate p.2.length 0) ∧
        (∃ o, pyGet gk22orders n = .ok o ∧ o ∈ gk22orders ∧
          (gk22tab o).2.sum ≠ 0 ∧
          ∃ p, gk22 n = .ok p ∧ p.2.sum = 1 ∧
            p.2 ≠ List.replicate p.2.length 0) ∧
        (∃ o, pyGet gk24orders n = .ok o ∧ o ∈ gk24orders ∧
          (gk24tab o).2.sum ≠ 0 ∧
          ∃ p, gk24 n = .ok p ∧ p.2.sum = 1 ∧
            p.2 ≠ List.replicate p.2.length 0)) := by
  intro n
  constructor
  · intro h0 h1
    exact family_branch_aux gk16orders gk16tab gk16 (fun _ => rfl) gk16tab_sum_ne
      h0 (by norm_num [gk16orders]; omega)
  · intro h0 h1
    refine ⟨?_, ?_, ?_⟩
    · exact family_branch_aux gk18orders gk18tab gk18 (fun _ => rfl) gk18tab_sum_ne
        h0 (by norm_num [gk18orders]; omega)
    · exact family_branch_aux gk22orders gk22tab gk22 (fun _ => rfl) gk22tab_sum_ne
        h0 (by norm_num [gk22orders]; omega)
    · exact family_branch_aux gk24orders gk24tab gk24 (fun _ => rfl) gk24tab_sum_ne
        h0 (by norm_num [gk24orders]; omega)

/-- Witness for C10 at level 0 of each family. -/
theorem valid_level_branch_nonzero_witness :
    (∃ o, pyGet gk16orders 0 = .ok o ∧ o ∈ gk16orders ∧
      (gk16tab o).2.sum ≠ 0 ∧
      ∃ p, gk16 0 = .ok p ∧ p.2.sum = 1 ∧
        p.2 ≠ List.replicate p.2.length 0) ∧
    (∃ o, pyGet gk24orders 0 = .ok o ∧ o ∈ gk24orders ∧
      (gk24tab o).2.sum ≠ 0 ∧
      ∃ p, gk24 0 = .ok p ∧ p.2.sum = 1 ∧
        p.2 ≠ List.replicate p.2.length 0) := by
  have h := valid_level_branch_nonzero 0
  exact ⟨h.1 (by norm_num) (by norm_num), (h.2 (by norm_num) (by norm_num)).2.2⟩


/-! ### Claims C5, C6 -/

/-- The abscissa list a rule-table call returned (junk pair for an error). -/
def absList (e : Except PyErr (List RS × List ℚ)) : List RS :=
  (e.toOption.getD ([], [])).1

/-- The weight list a rule-table call returned (junk pair for an error). -/
def wtList (e : Except PyErr (List RS × List ℚ)) : List ℚ :=
  (e.toOption.getD ([], [])).2

theorem mem_neg_of_map_neg_eq_reverse {l : List RS}
    (h : l.map RS.neg = l.reverse) : ∀ x ∈ l, RS.neg x ∈ l := by
  intro x hx
  have h2 : RS.neg x ∈ l.map RS.neg := List.mem_map_of_mem _ hx
  rw [h] at h2
  exact List.mem_reverse.mp h2

/-- C5 fails on the code: the abscissas of `gk16` at level 5 (order 19) are
not symmetric about zero — `0.87004089535290285·√2` is returned but its
negation is not (in the source, `x[6]` is never assigned and `x[8]` is
assigned twice).  The sibling family `gk24` at the same order 19 is
symmetric, witnessing that the asymmetry is a transcription slip. -/
theorem gk16_level5_not_symmetric :
    (¬ ∀ x ∈ absList (gk16 5), RS.neg x ∈ absList (gk16 5)) ∧
    (∀ x ∈ absList (gk24 3), RS.neg x ∈ absList (gk24 3)) := by
  constructor
  · intro h
    have hx : (⟨0, 0.87004089535290285⟩ : RS) ∈ absList (gk16 5) :=
      List.getElem?_mem (by with_unfolding_all exact rfl :
        (absList (gk16 5))[11]? = some ⟨0, 0.87004089535290285⟩)
    have hnot : ¬ ((⟨0, 0.87004089535290285⟩ : RS).neg ∈ absList (gk16 5)) := by
      with_unfolding_all decide
    exact hnot (h _ hx)
  · exact mem_neg_of_map_neg_eq_reverse (by with_unfolding_all exact rfl)

/-- C6 fails on the code at order 19: `gk16` level 5 differs from `gk24`
level 3 (its abscissa 6 is the never-assigned 0 instead of
`-1.2247448713915889·√2`), although the weights agree; at orders 1, 3, 9
all four families return verbatim identical rules, and `gk18`, `gk22`,
`gk24` also agree verbatim at order 19. -/
theorem families_shared_levels_differ_at_19 :
    gk16 5 ≠ gk24 3 ∧ wtList (gk16 5) = wtList (gk24 3) ∧
    gk16 0 = gk24 0 ∧ gk16 1 = gk24 1 ∧ gk16 3 = gk24 2 ∧
    gk18 0 = gk24 0 ∧ gk18 1 = gk24 1 ∧ gk18 2 = gk24 2 ∧ gk18 3 = gk24 3 ∧
    gk22 0 = gk24 0 ∧ gk22 1 = gk24 1 ∧ gk22 2 = gk24 2 ∧ gk22 3 = gk24 3 := by
  refine ⟨?_, by with_unfolding_all exact rfl, by with_unfolding_all exact rfl,
    by with_unfolding_all exact rfl, by with_unfolding_all exact rfl,
    by with_unfolding_all exact rfl, by with_unfolding_all exact rfl,
    by with_unfolding_all exact rfl, by with_unfolding_all exact rfl,
    by with_unfolding_all exact rfl, by with_unfolding_all exact rfl,
    by with_unfolding_all exact rfl, by with_unfolding_all exact rfl⟩
  intro h
  have h1 : (absList (gk16 5))[6]? = some ⟨0, 0⟩ := by
    with_unfolding_all exact rfl
  have h2 : (absList (gk24 3))[6]? = some ⟨0, -1.2247448713915889⟩ := by
    with_unfolding_all exact rfl
  rw [show absList (gk16 5) = absList (gk24 3) from congrArg absList h, h2] at h1
  have hb := congrArg RS.b (Option.some.inj h1)
  norm_num at hb

/-! ### Claim C8 -/

/-- A concrete distribution whose inverse CDF is the identity, used to
evaluate the combinator on concrete inputs. -/
def dId : Dist RS RS := ⟨id⟩

/-- C8 counterexample: `gk` with `order=[0,1]` and a single distribution
does not raise any dimension-mismatch error: the terminal branch runs and
`[1,3,9,19,43][order]` with a list index raises `TypeError`. -/
theorem gk_order_length_mismatch_typeerror :
    gk (fun r => r) 24 (.list [0, 1]) [dId] = .error .typeError := by
  with_unfolding_all exact rfl

/-- C8 amended: the combinator never validates that the order sequence
length equals the number of distributions.  With one distribution and a
list order it raises `TypeError` (a list used as a list index); with two
distributions and a shorter order list it raises `IndexError`; with a
longer order list the extra entries are silently ignored and the call
succeeds. -/
theorem gk_order_length_mismatch_amended :
    gk (fun r => r) 24 (.list [0, 1]) [dId] = .error .typeError ∧
    gk (fun r => r) 24 (.list [0]) [dId, dId] = .error .indexError ∧
    okB (gk (fun r => r) 24 (.list [0, 1, 0]) [dId, dId]) = true := by
  refine ⟨by with_unfolding_all exact rfl, by with_unfolding_all exact rfl,
    by with_unfolding_all exact rfl⟩

/-! ### Claim C4 -/

theorem sqrt2_gap (b c t : ℚ) (h : t < |b - c|) :
    (t : ℝ) < |(b : ℝ) * Real.sqrt 2 - (c : ℝ) * Real.sqrt 2| := by
  have h2 : (b : ℝ) * Real.sqrt 2 - (c : ℝ) * Real.sqrt 2
      = ((b - c : ℚ) : ℝ) * Real.sqrt 2 := by
    push_cast
    ring
  rw [h2, abs_mul, abs_of_nonneg (Real.sqrt_nonneg 2)]
  have h1 : (1 : ℝ) ≤ Real.sqrt 2 := by
    rw [show (1 : ℝ) = Real.sqrt 1 by rw [Real.sqrt_one]]
    exact Real.sqrt_le_sqrt (by norm_num)
  have h3 : (t : ℝ) < |((b - c : ℚ) : ℝ)| := by
    rw [show |((b - c : ℚ) : ℝ)| = ((|b - c| : ℚ) : ℝ) by push_cast; ring]
    exact_mod_cast h
  calc (t : ℝ) < |((b - c : ℚ) : ℝ)| := h3
    _ = |((b - c : ℚ) : ℝ)| * 1 := by ring
    _ ≤ |((b - c : ℚ) : ℝ)| * Real.sqrt 2 :=
        mul_le_mul_of_nonneg_left h1 (abs_nonneg _)

/-- C4 fails on the code for family `gk16` between the adjacent levels 4
(order 17) and 5 (order 19): the level-4 abscissa
`-0.87004089535290285·√2` is farther than `10⁻⁶` from every level-5
abscissa (in the source the level-5 branch never assigns `x[6]` and
overwrites `x[8]`), so the level-4 abscissa set is not a subset of the
level-5 abscissa set within tolerance.  An `RS` value `⟨a, b⟩` denotes the
real number `a + b·√2`. -/
theorem gk16_level4_not_nested_in_level5 :
    ∃ x ∈ absList (gk16 4), ∀ y ∈ absList (gk16 5),
      ((1/1000000 : ℚ) : ℝ) <
        |((x.a : ℝ) + (x.b : ℝ) * Real.sqrt 2)
          - ((y.a : ℝ) + (y.b : ℝ) * Real.sqrt 2)| := by
  refine ⟨⟨0, -0.87004089535290285⟩,
    List.getElem?_mem (by with_unfolding_all exact rfl :
      (absList (gk16 4))[6]? = some ⟨0, -0.87004089535290285⟩), ?_⟩
  have hform : absList (gk16 5) = gk16x19.map scale := by
    with_unfolding_all exact rfl
  rw [hform]
  intro y hy
  obtain ⟨q, hq, rfl⟩ := List.mem_map.mp hy
  have hgap : ∀ r ∈ gk16x19, (1/1000000 : ℚ) < |(-0.87004089535290285 : ℚ) - r| := by
    with_unfolding_all decide
  have h := sqrt2_gap (-0.87004089535290285) q (1/1000000) (hgap q hq)
  simpa [scale] using h

/-! ### Inversion lemmas for the combinator -/

theorem gk1_ok {V W : Type} {ndtr : RS → V} {rule : ℕ} {order : PyOrder}
    {d : Dist V W} {ns : List (List W)} {w : List ℚ}
    (h : gk1 ndtr rule order d = .ok (ns, w)) :
    ∃ o x, order = .int o ∧ gkRule rule o = .ok (x, w) ∧
      ns = [x.map (fun t => d.inv (ndtr t))] := by
  cases order with
  | int o =>
    unfold gk1 at h
    rw [bind_ok_iff] at h
    obtain ⟨xw, h1, h2⟩ := h
    have h2' := (Except.ok.injEq _ _).mp h2
    simp only [Prod.mk.injEq] at h2'
    obtain ⟨h3, h4⟩ := h2'
    subst h4
    exact ⟨o, xw.1, rfl, by simpa using h1, h3.symm⟩
  | list os =>
    unfold gk1 at h
    simp [Bind.bind, Except.bind] at h

theorem gk1_ok_sum {V W : Type} {ndtr : RS → V} {rule : ℕ} {order : PyOrder}
    {d : Dist V W} {ns : List (List W)} {w : List ℚ}
    (h : gk1 ndtr rule order d = .ok (ns, w)) : w.sum = 1 := by
  obtain ⟨o, x, _, hr, _⟩ := gk1_ok h
  exact gkRule_ok_sum hr

theorem mapEx_ok_length {α β : Type} {f : α → Except PyErr β} :
    ∀ {l : List α} {ys : List β}, mapEx f l = .ok ys → ys.length = l.length := by
  intro l
  induction l with
  | nil =>
    intro ys h
    obtain rfl : List.nil = ys := (Except.ok.injEq _ _).mp h
    rfl
  | cons a as ih =>
    intro ys h
    unfold mapEx at h
    rw [bind_ok_iff] at h
    obtain ⟨b, hb, h⟩ := h
    rw [bind_ok_iff] at h
    obtain ⟨bs, hbs, h⟩ := h
    obtain rfl : b :: bs = ys := (Except.ok.injEq _ _).mp h
    simp [ih hbs]

theorem mapEx_ok_mem {α β : Type} {f : α → Except PyErr β} :
    ∀ {l : List α} {ys : List β}, mapEx f l = .ok ys →
      ∀ y ∈ ys, ∃ a ∈ l, f a = .ok y := by
  intro l
  induction l with
  | nil =>
    intro ys h
    obtain rfl : List.nil = ys := (Except.ok.injEq _ _).mp h
    simp
  | cons a as ih =>
    intro ys h
    unfold mapEx at h
    rw [bind_ok_iff] at h
    obtain ⟨b, hb, h⟩ := h
    rw [bind_ok_iff] at h
    obtain ⟨bs, hbs, h⟩ := h
    obtain rfl : b :: bs = ys := (Except.ok.injEq _ _).mp h
    intro y hy
    rcases List.mem_cons.mp hy with rfl | hy
    · exact ⟨a, List.mem_cons_self _ _, hb⟩
    · obtain ⟨a', ha', hfa⟩ := ih hbs y hy
      exact ⟨a', List.mem_cons_of_mem _ ha', hfa⟩

/-! ### The cross-product of weights multiplies to the product of sums -/

theorem sum_map_mul_left (a : ℚ) {α : Type} (g : α → ℚ) (l : List α) :
    (l.map (fun t => a * g t)).sum = a * (l.map g).sum := by
  induction l with
  | nil => simp
  | cons x xs ih => simp [ih, mul_add]

theorem flatMap_cons_prod_sum (ls : List (List ℚ)) (l : List ℚ) :
    ((l.flatMap (fun x => (combine ls).map (x :: ·))).map List.prod).sum
      = l.sum * ((combine ls).map List.prod).sum := by
  induction l with
  | nil => simp
  | cons a as ih =>
    simp only [List.flatMap_cons, List.map_append, List.sum_append, ih]
    rw [List.map_map]
    have hc : (List.prod ∘ (fun t => a :: t) : List ℚ → ℚ)
        = fun t => a * List.prod t := by
      funext t
      simp
    rw [hc, sum_map_mul_left, List.sum_cons, add_mul]

theorem combine_map_prod_sum (ls : List (List ℚ)) :
    ((combine ls).map List.prod).sum = (ls.map List.sum).prod := by
  induction ls with
  | nil => simp [combine]
  | cons l ls ih => simp [combine, flatMap_cons_prod_sum, ih]

theorem bind_error_ne_ok {e : Except PyErr α} {pe : PyErr} {b : β} :
    (e >>= fun _ => (Except.error pe : Except PyErr β)) ≠ .ok b := by
  cases e <;> simp [Bind.bind, Except.bind]

/-! ### Claim C2 -/

/-- C2: whenever the combinator `gk` returns a rule, the combined weight
vector sums to exactly 1, independently of which distributions (and which
`ndtr`) are supplied: the cross-product weights multiply along each grid
point, so the total is the product of the per-dimension normalized weight
sums — each exactly 1 — and the inverse-CDF transform step changes only
the nodes, never the weights.  (`combine` is modelled from the spec.) -/
theorem gk_weight_sum_one {V W : Type} (ndtr : RS → V) (rule : ℕ)
    (order : PyOrder) (dists : List (Dist V W)) (nodes : List (List W))
    (ws : List ℚ) (h : gk ndtr rule order dists = .ok (nodes, ws)) :
    ws.sum = 1 := by
  by_cases hlen : 1 < dists.length
  · unfold gk at h
    rw [if_pos hlen] at h
    have main : ∀ xw : List (List (List W) × List ℚ),
        (∀ p ∈ xw, ∃ d : Dist V W, ∃ or, gk1 ndtr rule or d = .ok p) →
        (bind (Except.ok xw) fun xw =>
          bind (mapEx (fun p => pyGet p.1 0) xw) fun xs =>
            Except.ok (npT (combine xs),
              (combine (xw.map Prod.snd)).map List.prod)) = .ok (nodes, ws) →
        ws.sum = 1 := by
      intro xw hmem h
      rw [bind_ok_iff] at h
      obtain ⟨xw', hxw, h⟩ := h
      obtain rfl : xw = xw' := (Except.ok.injEq _ _).mp hxw
      rw [bind_ok_iff] at h
      obtain ⟨xs, hxs, h⟩ := h
      have h' := (Except.ok.injEq _ _).mp h
      simp only [Prod.mk.injEq] at h'
      obtain ⟨-, hws⟩ := h'
      rw [← hws, combine_map_prod_sum]
      apply List.prod_eq_one
      intro q hq
      rw [List.map_map] at hq
      obtain ⟨p, hp, rfl⟩ := List.mem_map.mp hq
      obtain ⟨d, or, hgk1⟩ := hmem p hp
      obtain ⟨pn, pw⟩ := p
      exact gk1_ok_sum hgk1
    cases order with
    | int o =>
      rw [bind_ok_iff] at h
      obtain ⟨xw, h1, h2⟩ := h
      refine main xw ?_ (by rw [bind_ok_iff]; exact ⟨xw, rfl, h2⟩)
      intro p hp
      obtain ⟨d, _, hfa⟩ := mapEx_ok_mem h1 p hp
      exact ⟨d, .int o, hfa⟩
    | list os =>
      rw [bind_ok_iff] at h
      obtain ⟨xw, h1, h2⟩ := h
      refine main xw ?_ (by rw [bind_ok_iff]; exact ⟨xw, rfl, h2⟩)
      intro p hp
      obtain ⟨i, _, hfa⟩ := mapEx_ok_mem h1 p hp
      rw [bind_ok_iff] at hfa
      obtain ⟨oi, _, hfa⟩ := hfa
      rw [bind_ok_iff] at hfa
      obtain ⟨di, _, hfa⟩ := hfa
      exact ⟨di, .int oi, hfa⟩
  · unfold gk at h
    rw [if_neg hlen] at h
    rcases dists with _ | ⟨d, _ | ⟨d', rest⟩⟩
    · cases order with
      | int o => exact absurd h bind_error_ne_ok
      | list os => exact absurd h bind_error_ne_ok
    · exact gk1_ok_sum h
    · exact absurd (by simp) hlen

/-- Witness for C2: a concrete two-dimensional call at level 0. -/
theorem gk_weight_sum_one_witness : ([(1 : ℚ)]).sum = 1 :=
  gk_weight_sum_one (fun r => r) 24 (.int 0) [dId, dId] [[⟨0, 0⟩], [⟨0, 0⟩]] [1]
    (by with_unfolding_all exact rfl)

/-! ### Index bookkeeping for the Cartesian product -/

theorem getD_eq_get {α : Type} {l : List α} {i : ℕ} (d : α) (h : i < l.length) :
    l.getD i d = l.get ⟨i, h⟩ := by
  rw [List.getD_eq_getElem?_getD, List.getElem?_eq_getElem h]
  rfl

theorem getD_map {α β : Type} (f : α → β) {l : List α} {i : ℕ} (d : β) (d' : α)
    (h : i < l.length) : (l.map f).getD i d = f (l.getD i d') := by
  rw [getD_eq_get d (by simpa using h), getD_eq_get d' h]
  simp

theorem getD_range {n i : ℕ} (d : ℕ) (h : i < n) :
    (List.range n).getD i d = i := by
  rw [getD_eq_get d (by simpa using h)]
  simp

theorem range_map_getD {α : Type} (l : List α) (d : α) :
    (List.range l.length).map (fun i => l.getD i d) = l := by
  induction l with
  | nil => simp
  | cons a as ih =>
    rw [List.length_cons, List.range_succ_eq_map, List.map_cons, List.map_map]
    have h2 : ((fun i => List.getD (a :: as) i d) ∘ Nat.succ) = fun i => as.getD i d := by
      funext i
      simp
    rw [List.getD_cons_zero, h2, ih]

theorem zipWith_eq_range_map {α β γ : Type} (f : α → β → γ) (da : α) (db : β) :
    ∀ (as : List α) (bs : List β), as.length = bs.length →
      List.zipWith f as bs
        = (List.range as.length).map (fun i => f (as.getD i da) (bs.getD i db)) := by
  intro as
  induction as with
  | nil => intro bs h; simp
  | cons a as ih =>
    intro bs h
    cases bs with
    | nil => simp at h
    | cons b bs =>
      simp only [List.zipWith_cons_cons, List.length_cons, List.range_succ_eq_map,
        List.map_cons, List.getD_cons_zero, List.map_map]
      congr 1
      have : ((fun i => f ((a :: as).getD i da) ((b :: bs).getD i db)) ∘ Nat.succ)
          = fun i => f (as.getD i da) (bs.getD i db) := by
        funext i
        simp
      rw [this, ih bs (by simpa using h)]

/-- All index tuples of a mixed-radix shape, enumerated in the same order
as `combine` enumerates the Cartesian product. -/
def allTuples : List ℕ → List (List ℕ)
  | [] => [[]]
  | n :: ns => (List.range n).flatMap (fun i => (allTuples ns).map (i :: ·))

theorem allTuples_length : ∀ ns : List ℕ, (allTuples ns).length = ns.prod := by
  intro ns
  induction ns with
  | nil => rfl
  | cons n ns ih =>
    simp only [allTuples, List.length_flatMap, List.map_map, List.prod_cons]
    have h2 : (List.length ∘ fun i => (allTuples ns).map (i :: ·)) = fun _ : ℕ => ns.prod := by
      funext i
      simp [ih]
    rw [h2, List.map_const', List.sum_replicate]
    simp [Nat.mul_comm]

theorem mem_allTuples : ∀ {ns : List ℕ} {t : List ℕ}, t ∈ allTuples ns →
    t.length = ns.length ∧ ∀ i, i < ns.length → t.getD i 0 < ns.getD i 0 := by
  intro ns
  induction ns with
  | nil =>
    intro t ht
    obtain rfl : t = [] := by simpa [allTuples] using ht
    simp
  | cons n ns ih =>
    intro t ht
    simp only [allTuples, List.mem_flatMap, List.mem_map, List.mem_range] at ht
    obtain ⟨i, hi, t', ht', rfl⟩ := ht
    obtain ⟨hlen, hbound⟩ := ih ht'
    refine ⟨by simp [hlen], ?_⟩
    intro k hk
    cases k with
    | zero => simpa using hi
    | succ k => simpa using hbound k (by simpa using hk)

theorem combine_length {α : Type} : ∀ ls : List (List α),
    (combine ls).length = (ls.map List.length).prod := by
  intro ls
  induction ls with
  | nil => rfl
  | cons l ls ih =>
    simp only [combine, List.length_flatMap, List.map_map, List.map_cons, List.prod_cons]
    have h2 : (List.length ∘ fun x : α => (combine ls).map (x :: ·))
        = fun _ : α => (ls.map List.length).prod := by
      funext x
      simp [ih]
    rw [h2, List.map_const', List.sum_replicate]
    simp [Nat.mul_comm]

theorem mem_combine_length {α : Type} : ∀ {ls : List (List α)} {t : List α},
    t ∈ combine ls → t.length = ls.length := by
  intro ls
  induction ls with
  | nil =>
    intro t ht
    obtain rfl : t = [] := by simpa [combine] using ht
    rfl
  | cons l ls ih =>
    intro t ht
    simp only [combine, List.mem_flatMap, List.mem_map] at ht
    obtain ⟨x, _, t', ht', rfl⟩ := ht
    simp [ih ht']

theorem combine_eq_allTuples {α : Type} (d : α) : ∀ ls : List (List α),
    combine ls = (allTuples (ls.map List.length)).map
      (fun t => List.zipWith (fun l i => l.getD i d) ls t) := by
  intro ls
  induction ls with
  | nil => rfl
  | cons l ls ih =>
    simp only [combine, List.map_cons, allTuples, List.map_flatMap, List.map_map]
    rw [show l.flatMap (fun x => (combine ls).map (x :: ·))
        = ((List.range l.length).map (fun i => l.getD i d)).flatMap
            (fun x => (combine ls).map (x :: ·)) by rw [range_map_getD],
      List.flatMap_map]
    congr 1
    funext i
    rw [ih, List.map_map]
    rfl

theorem filterMap_getElem {α : Type} (d : α) :
    ∀ (L : List (List α)) (i : ℕ), (∀ r ∈ L, i < r.length) →
      L.filterMap (fun r => r[i]?) = L.map (fun r => r.getD i d) := by
  intro L
  induction L with
  | nil => intro i _; rfl
  | cons r L ih =>
    intro i h
    have hr : i < r.length := h r (List.mem_cons_self _ _)
    simp only [List.filterMap_cons, List.getElem?_eq_getElem hr, List.map_cons]
    rw [ih i (fun s hs => h s (List.mem_cons_of_mem _ hs)), getD_eq_get d hr]
    simp

theorem filterMap_getElem_length {α : Type} :
    ∀ (L : List (List α)) (i : ℕ), (∀ r ∈ L, i < r.length) →
      (L.filterMap (fun r => r[i]?)).length = L.length := by
  intro L
  induction L with
  | nil => intro i _; rfl
  | cons r L ih =>
    intro i h
    have hr : i < r.length := h r (List.mem_cons_self _ _)
    simp only [List.filterMap_cons, List.getElem?_eq_getElem hr, List.length_cons]
    rw [ih i (fun s hs => h s (List.mem_cons_of_mem _ hs))]

theorem npT_length {α : Type} {L : List (List α)} {D : ℕ} (hne : L ≠ [])
    (h : ∀ r ∈ L, r.length = D) : (npT L).length = D := by
  unfold npT
  cases L with
  | nil => simp at hne
  | cons r L => simp [h r (List.mem_cons_self _ _)]

theorem npT_rows {α : Type} {L : List (List α)} {D : ℕ}
    (h : ∀ r ∈ L, r.length = D) : ∀ c ∈ npT L, c.length = L.length := by
  intro c hc
  unfold npT at hc
  rw [List.mem_map] at hc
  obtain ⟨i, hi, rfl⟩ := hc
  rw [List.mem_range] at hi
  cases L with
  | nil => simp at hi
  | cons r L =>
    have hiD : i < D := by
      have hr := h r (List.mem_cons_self _ _)
      simpa [hr] using hi
    exact filterMap_getElem_length _ i (fun s hs => by rw [h s hs]; exact hiD)

theorem npT_col {α : Type} (d : α) {L : List (List α)} {D : ℕ}
    (h : ∀ r ∈ L, r.length = D) {j : ℕ} (hj : j < L.length) :
    (npT L).map (fun c => c.getD j d) = L.getD j [] := by
  unfold npT
  cases L with
  | nil => simp at hj
  | cons r L =>
    have hrD : r.length = D := h r (List.mem_cons_self _ _)
    rw [List.headD_cons, hrD, List.map_map]
    rw [List.map_congr_left (g := fun i => ((r :: L).getD j []).getD i d) ?_]
    · have hlen : ((r :: L).getD j []).length = D := by
        rw [getD_eq_get [] hj]
        exact h _ (List.get_mem _ _ _)
      rw [← hlen, range_map_getD]
    · intro i hi
      rw [List.mem_range] at hi
      simp only [Function.comp]
      rw [filterMap_getElem d _ i (fun s hs => by rw [h s hs]; exact hi)]
      rw [getD_map (fun s => s.getD i d) d [] hj]

theorem mapEx_ok_get {α β : Type} {f : α → Except PyErr β} :
    ∀ {l : List α} {ys : List β}, mapEx f l = .ok ys →
      ∀ i (hi : i < l.length) (hy : i < ys.length),
        f (l.get ⟨i, hi⟩) = .ok (ys.get ⟨i, hy⟩) := by
  intro l
  induction l with
  | nil => intro ys h i hi hy; simp at hi
  | cons a as ih =>
    intro ys h i hi hy
    unfold mapEx at h
    rw [bind_ok_iff] at h
    obtain ⟨b, hb, h⟩ := h
    rw [bind_ok_iff] at h
    obtain ⟨bs, hbs, h⟩ := h
    obtain rfl : b :: bs = ys := (Except.ok.injEq _ _).mp h
    cases i with
    | zero => simpa using hb
    | succ i => exact ih hbs i (by simpa using hi) (by simpa using hy)

theorem gk16tab_pos : ∀ o ∈ gk16orders, 0 < (gk16tab o).1.length := by
  with_unfolding_all decide

theorem gk18tab_pos : ∀ o ∈ gk18orders, 0 < (gk18tab o).1.length := by
  with_unfolding_all decide

theorem gk22tab_pos : ∀ o ∈ gk22orders, 0 < (gk22tab o).1.length := by
  with_unfolding_all decide

theorem gk24tab_pos : ∀ o ∈ gk24orders, 0 < (gk24tab o).1.length := by
  with_unfolding_all decide

theorem gk16_ok_pos {n : ℤ} {p : List RS × List ℚ} (h : gk16 n = .ok p) :
    0 < p.1.length := by
  unfold gk16 at h
  rw [bind_ok_iff] at h
  obtain ⟨o, h1, h2⟩ := h
  obtain rfl : _ = p := (Except.ok.injEq _ _).mp h2
  simpa using gk16tab_pos o (pyGet_ok_mem h1)

theorem gk18_ok_pos {n : ℤ} {p : List RS × List ℚ} (h : gk18 n = .ok p) :
    0 < p.1.length := by
  unfold gk18 at h
  rw [bind_ok_iff] at h
  obtain ⟨o, h1, h2⟩ := h
  obtain rfl : _ = p := (Except.ok.injEq _ _).mp h2
  simpa using gk18tab_pos o (pyGet_ok_mem h1)

theorem gk22_ok_pos {n : ℤ} {p : List RS × List ℚ} (h : gk22 n = .ok p) :
    0 < p.1.length := by
  unfold gk22 at h
  rw [bind_ok_iff] at h
  obtain ⟨o, h1, h2⟩ := h
  obtain rfl : _ = p := (Except.ok.injEq _ _).mp h2
  simpa using gk22tab_pos o (pyGet_ok_mem h1)

theorem gk24_ok_pos {n : ℤ} {p : List RS × List ℚ} (h : gk24 n = .ok p) :
    0 < p.1.length := by
  unfold gk24 at h
  rw [bind_ok_iff] at h
  obtain ⟨o, h1, h2⟩ := h
  obtain rfl : _ = p := (Except.ok.injEq _ _).mp h2
  simpa using gk24tab_pos o (pyGet_ok_mem h1)

theorem gkRule_ok_pos {rule : ℕ} {o : ℤ} {p : List RS × List ℚ}
    (h : gkRule rule o = .ok p) : 0 < p.1.length := by
  unfold gkRule at h
  split at h
  · exact gk16_ok_pos h
  split at h
  · exact gk18_ok_pos h
  split at h
  · exact gk22_ok_pos h
  split at h
  · exact gk24_ok_pos h
  · simp at h

theorem gk1_ok_row {V W : Type} {ndtr : RS → V} {rule : ℕ} {order : PyOrder}
    {d : Dist V W} {ns : List (List W)} {w : List ℚ}
    (h : gk1 ndtr rule order d = .ok (ns, w)) :
    ∃ row : List W, ns = [row] ∧ row.length = w.length ∧ 0 < row.length := by
  obtain ⟨o, x, -, hr, hns⟩ := gk1_ok h
  refine ⟨x.map (fun t => d.inv (ndtr t)), hns, ?_, ?_⟩
  · simpa using gkRule_ok_len hr
  · simpa using gkRule_ok_pos hr

theorem gk_singleton {V W : Type} (ndtr : RS → V) (rule : ℕ) (order : PyOrder)
    (d : Dist V W) : gk ndtr rule order [d] = gk1 ndtr rule order d := by
  unfold gk
  rfl

theorem zipWith_fst_map {α β γ : Type} (f : α → γ) :
    ∀ (as : List α) (bs : List β), as.length = bs.length →
      List.zipWith (fun a _ => f a) as bs = as.map f := by
  intro as
  induction as with
  | nil => intro bs _; simp
  | cons a as ih =>
    intro bs h
    cases bs with
    | nil => simp at h
    | cons b bs => simp [ih bs (by simpa using h)]

theorem pyGet_singleton_zero {α : Type} (a : α) : pyGet [a] 0 = .ok a := by
  rfl

theorem gk_multi_core {V W : Type} (ndtr : RS → V) (rule : ℕ)
    (dists : List (Dist V W)) (nodes : List (List W)) (ws : List ℚ) (dfltW : W)
    (ords : ℕ → PyOrder) (xw : List (List (List W) × List ℚ))
    (hxwlen : xw.length = dists.length)
    (hcall : ∀ i (hi : i < dists.length) (hx : i < xw.length),
        gk1 ndtr rule (ords i) (dists.get ⟨i, hi⟩) = .ok (xw.get ⟨i, hx⟩))
    (xs : List (List W))
    (hxs : mapEx (fun p => pyGet p.1 0) xw = .ok xs)
    (hnodes : nodes = npT (combine xs))
    (hws : ws = (combine (xw.map Prod.snd)).map List.prod) :
    ∃ rules : List (List W × List ℚ),
      rules.length = dists.length ∧
      (∀ i (hi : i < dists.length),
        gk ndtr rule (ords i) [dists.get ⟨i, hi⟩]
          = .ok ([(rules.getD i ([], [])).1], (rules.getD i ([], [])).2)) ∧
      (∀ p ∈ rules, p.2.length = p.1.length) ∧
      nodes.length = dists.length ∧
      (∀ r ∈ nodes, r.length = (rules.map (fun p => p.1.length)).prod) ∧
      ws.length = (rules.map (fun p => p.1.length)).prod ∧
      (∀ j, j < ws.length →
        ∃ t : List ℕ, t.length = dists.length ∧
          (∀ i, i < dists.length →
            t.getD i 0 < (rules.getD i ([], [])).1.length) ∧
          (∀ i, i < dists.length →
            (nodes.getD i []).getD j dfltW
              = ((rules.getD i ([], [])).1).getD (t.getD i 0) dfltW) ∧
          ws.getD j 0 = ((List.range dists.length).map
            (fun i => ((rules.getD i ([], [])).2).getD (t.getD i 0) 0)).prod) := by
  have hxslen : xs.length = xw.length := mapEx_ok_length hxs
  -- per-dimension structure of the recursive results
  have hrow : ∀ i (hx : i < xw.length) (hs : i < xs.length),
      (xw.get ⟨i, hx⟩).1 = [xs.get ⟨i, hs⟩] ∧
      (xs.get ⟨i, hs⟩).length = (xw.get ⟨i, hx⟩).2.length ∧
      0 < (xs.get ⟨i, hs⟩).length := by
    intro i hx hs
    have hi : i < dists.length := hxwlen ▸ hx
    have hget := mapEx_ok_get hxs i hx hs
    obtain ⟨row, hns, hlen, hpos⟩ := gk1_ok_row (hcall i hi hx)
    rw [hns, pyGet_singleton_zero] at hget
    obtain rfl : row = xs.get ⟨i, hs⟩ := (Except.ok.injEq _ _).mp hget
    exact ⟨hns, hlen.symm ▸ rfl, hpos⟩
  have hrd : ∀ i (hi : i < dists.length) (hx : i < xw.length) (hs : i < xs.length),
      (List.zipWith (fun x p => (x, p.2)) xs xw).getD i ([], [])
        = (xs.get ⟨i, hs⟩, (xw.get ⟨i, hx⟩).2) := by
    intro i hi hx hs
    rw [getD_eq_get ([], [])
      (by rw [List.length_zipWith, hxslen, hxwlen, Nat.min_self]; exact hi)]
    simp [List.getElem_zipWith]
  have hS : (List.zipWith (fun x (p : List (List W) × List ℚ) => (x, p.2)) xs xw).map
      (fun p => p.1.length) = xs.map List.length := by
    rw [List.map_zipWith]
    exact zipWith_fst_map List.length xs xw hxslen
  have hPP : (xw.map Prod.snd).map List.length = xs.map List.length := by
    apply List.ext_get
    · simp [hxslen]
    · intro i h1 h2
      simp only [List.get_eq_getElem, List.getElem_map]
      have hx : i < xw.length := by simpa using h1
      have hs : i < xs.length := by simpa using h2
      have := (hrow i hx hs).2.1
      simp only [List.get_eq_getElem] at this
      exact this.symm
  have hmemC : ∀ r ∈ combine xs, r.length = xs.length := fun r hr =>
    mem_combine_length hr
  have hposC : 0 < (combine xs).length := by
    rw [combine_length]
    apply List.prod_pos
    intro a ha
    rw [List.mem_map] at ha
    obtain ⟨l, hl, rfl⟩ := ha
    rw [List.mem_iff_get] at hl
    obtain ⟨⟨i, hs⟩, rfl⟩ := hl
    exact (hrow i (by rw [← hxslen]; exact hs) hs).2.2
  have hwslen : ws.length = (xs.map List.length).prod := by
    rw [hws, List.length_map, combine_length, hPP]
  refine ⟨List.zipWith (fun x p => (x, p.2)) xs xw, ?_, ?_, ?_, ?_, ?_, ?_, ?_⟩
  · -- length
    rw [List.length_zipWith, hxslen, hxwlen, Nat.min_self]
  · -- provenance
    intro i hi
    have hx : i < xw.length := hxwlen ▸ hi
    have hs : i < xs.length := by rw [hxslen]; exact hx
    rw [hrd i hi hx hs, gk_singleton]
    obtain ⟨hns, -, -⟩ := hrow i hx hs
    rw [hcall i hi hx]
    congr 1
    exact Prod.ext hns rfl
  · -- weight/abscissa lengths agree
    intro p hp
    rw [List.mem_iff_get] at hp
    obtain ⟨⟨i, hilt⟩, rfl⟩ := hp
    have hs : i < xs.length := by
      have := hilt
      rw [List.length_zipWith] at this
      omega
    have hx : i < xw.length := by
      have := hilt
      rw [List.length_zipWith] at this
      omega
    obtain ⟨-, hlen, -⟩ := hrow i hx hs
    simp only [List.get_eq_getElem, List.getElem_zipWith]
    simpa using hlen.symm
  · -- nodes has one row per dimension
    rw [hnodes, npT_length (List.ne_nil_of_length_pos hposC) hmemC, hxslen, hxwlen]
  · -- every node row has one entry per grid point
    intro r hr
    rw [hS]
    rw [hnodes] at hr
    rw [npT_rows hmemC r hr, combine_length]
  · -- ws has one entry per grid point
    rw [hS, hws, List.length_map, combine_length, hPP]
  · -- alignment of nodes and weights
    intro j hj
    have hjP : j < (xs.map List.length).prod := by rw [hwslen] at hj; exact hj
    have hjA : j < (allTuples (xs.map List.length)).length := by
      rw [allTuples_length]; exact hjP
    have htmem : (allTuples (xs.map List.length)).getD j []
        ∈ allTuples (xs.map List.length) := by
      rw [getD_eq_get [] hjA]
      exact List.get_mem _ _ _
    obtain ⟨htlen, htbound⟩ := mem_allTuples htmem
    have htlen' : ((allTuples (xs.map List.length)).getD j []).length = xs.length := by
      rw [htlen, List.length_map]
    refine ⟨(allTuples (xs.map List.length)).getD j [], ?_, ?_, ?_, ?_⟩
    · rw [htlen', hxslen, hxwlen]
    · -- index bounds
      intro i hi
      have hx : i < xw.length := hxwlen ▸ hi
      have hs : i < xs.length := by rw [hxslen]; exact hx
      have hb := htbound i (by rw [List.length_map]; exact hs)
      rw [getD_map List.length 0 [] hs] at hb
      rw [hrd i hi hx hs]
      rw [getD_eq_get [] hs] at hb
      exact hb
    · -- node entries
      intro i hi
      have hx : i < xw.length := hxwlen ▸ hi
      have hs : i < xs.length := by rw [hxslen]; exact hx
      have hjC : j < (combine xs).length := by rw [combine_length]; exact hjP
      have hcol := npT_col dfltW hmemC hjC
      have hD : (npT (combine xs)).length = xs.length :=
        npT_length (List.ne_nil_of_length_pos hposC) hmemC
      have hentry := congrArg (fun l => l.getD i dfltW) hcol
      simp only [] at hentry
      rw [getD_map (fun c => c.getD j dfltW) dfltW []
        (by rw [hD]; exact hs)] at hentry
      have hpick : (combine xs).getD j []
          = List.zipWith (fun l k => l.getD k dfltW) xs
              ((allTuples (xs.map List.length)).getD j []) := by
        rw [combine_eq_allTuples dfltW xs, getD_map _ [] [] hjA]
      rw [hnodes, hentry, hpick]
      have hzw : i < (List.zipWith (fun l k => l.getD k dfltW) xs
          ((allTuples (xs.map List.length)).getD j [])).length := by
        rw [List.length_zipWith, htlen']
        omega
      rw [getD_eq_get dfltW hzw]
      simp only [List.get_eq_getElem, List.getElem_zipWith]
      rw [hrd i hi hx hs,
        getD_eq_get (0 : ℕ) (show i < ((allTuples (xs.map List.length)).getD j []).length
          by rw [htlen']; exact hs)]
      simp
    · -- weight entries
      rw [hws, getD_map List.prod 0 []
        (by rw [combine_length, hPP]; exact hjP)]
      rw [combine_eq_allTuples (0 : ℚ) (xw.map Prod.snd), hPP,
        getD_map _ [] [] hjA]
      have hlens : (xw.map Prod.snd).length
          = ((allTuples (xs.map List.length)).getD j []).length := by
        rw [htlen', List.length_map, hxslen]
      rw [zipWith_eq_range_map _ [] 0 _ _ hlens]
      have hwl : (xw.map Prod.snd).length = dists.length := by
        rw [List.length_map, hxwlen]
      rw [hwl]
      congr 1
      apply List.map_congr_left
      intro i hi
      rw [List.mem_range] at hi
      have hx : i < xw.length := hxwlen ▸ hi
      have hs : i < xs.length := by rw [hxslen]; exact hx
      rw [getD_map Prod.snd [] ([], []) hx, hrd i hi hx hs]
      rw [getD_eq_get ([], []) hx]

theorem pyGet_nat_inv {α : Type} {l : List α} {i : ℕ} {a : α}
    (h : pyGet l (i : ℤ) = .ok a) : ∃ hi : i < l.length, a = l.get ⟨i, hi⟩ := by
  have hb := (pyGet_okB l (i : ℤ)).mp (by rw [h]; rfl)
  have hi : i < l.length := by exact_mod_cast hb.2
  refine ⟨hi, ?_⟩
  rw [pyGet_nat hi] at h
  exact ((Except.ok.injEq _ _).mp h).symm

/-! ### Claim C1 -/

/-- C1: for `D ≥ 1` dimensions, a successful call to the combinator `gk`
returns a node matrix of shape `D × (N₁⋯N_D)` and a weight vector of
length `N₁⋯N_D`, where `Nᵢ` is the size of dimension `i`'s one-dimensional
rule (witnessed by the `rules` list: running the same call on dimension
`i` alone yields exactly `rules[i]`), and the enumeration order of weights
matches that of node columns: for every column `j` there is one index
tuple `t` with `nodes[i][j] = rules[i].abscissas[tᵢ]` for every dimension
`i` and `ws[j] = ∏ᵢ rules[i].weights[tᵢ]`.  (`combine` is modelled from
the spec.) -/
theorem gk_multivariate_shape {V W : Type} (ndtr : RS → V) (rule : ℕ)
    (order : PyOrder) (dists : List (Dist V W)) (nodes : List (List W))
    (ws : List ℚ) (dfltW : W)
    (h : gk ndtr rule order dists = .ok (nodes, ws))
    (hD : 1 ≤ dists.length) :
    ∃ rules : List (List W × List ℚ),
      rules.length = dists.length ∧
      (∀ i (hi : i < dists.length),
        gk ndtr rule (orderAt order i) [dists.get ⟨i, hi⟩]
          = .ok ([(rules.getD i ([], [])).1], (rules.getD i ([], [])).2)) ∧
      (∀ p ∈ rules, p.2.length = p.1.length) ∧
      nodes.length = dists.length ∧
      (∀ r ∈ nodes, r.length = (rules.map (fun p => p.1.length)).prod) ∧
      ws.length = (rules.map (fun p => p.1.length)).prod ∧
      (∀ j, j < ws.length →
        ∃ t : List ℕ, t.length = dists.length ∧
          (∀ i, i < dists.length →
            t.getD i 0 < (rules.getD i ([], [])).1.length) ∧
          (∀ i, i < dists.length →
            (nodes.getD i []).getD j dfltW
              = ((rules.getD i ([], [])).1).getD (t.getD i 0) dfltW) ∧
          ws.getD j 0 = ((List.range dists.length).map
            (fun i => ((rules.getD i ([], [])).2).getD (t.getD i 0) 0)).prod) := by
  by_cases hlen : 1 < dists.length
  · unfold gk at h
    rw [if_pos hlen] at h
    cases order with
    | int o =>
      rw [bind_ok_iff] at h
      obtain ⟨xw, h1, h⟩ := h
      rw [bind_ok_iff] at h
      obtain ⟨xs, h2, h⟩ := h
      have h' := (Except.ok.injEq _ _).mp h
      simp only [Prod.mk.injEq] at h'
      obtain ⟨hn, hw⟩ := h'
      refine gk_multi_core ndtr rule dists nodes ws dfltW
        (fun i => orderAt (.int o) i) xw (mapEx_ok_length h1) ?_ xs h2 hn.symm hw.symm
      intro i hi hx
      exact mapEx_ok_get h1 i hi hx
    | list os =>
      rw [bind_ok_iff] at h
      obtain ⟨xw, h1, h⟩ := h
      rw [bind_ok_iff] at h
      obtain ⟨xs, h2, h⟩ := h
      have h' := (Except.ok.injEq _ _).mp h
      simp only [Prod.mk.injEq] at h'
      obtain ⟨hn, hw⟩ := h'
      refine gk_multi_core ndtr rule dists nodes ws dfltW
        (fun i => orderAt (.list os) i) xw
        (by rw [mapEx_ok_length h1, List.length_range]) ?_ xs h2 hn.symm hw.symm
      intro i hi hx
      have hi' : i < (List.range dists.length).length := by simpa using hi
      have h3 := mapEx_ok_get h1 i hi' hx
      rw [List.get_range] at h3
      rw [bind_ok_iff] at h3
      obtain ⟨oi, hoi, h3⟩ := h3
      rw [bind_ok_iff] at h3
      obtain ⟨di, hdi, h3⟩ := h3
      obtain ⟨hoi', rfl⟩ := pyGet_nat_inv hoi
      obtain ⟨hdi', rfl⟩ := pyGet_nat_inv hdi
      show gk1 ndtr rule (orderAt (.list os) i) _ = _
      rw [show orderAt (.list os) i = .int (os.get ⟨i, hoi'⟩) by
        simp [orderAt, List.getD_eq_getElem?_getD, List.getElem?_eq_getElem hoi']]
      exact h3
  · -- single-dimension case
    rcases dists with _ | ⟨d, _ | ⟨d', rest⟩⟩
    · simp at hD
    · rw [gk_singleton] at h
      obtain ⟨o, x, ho, hr, hns⟩ := gk1_ok h
      subst ho
      have hxlen : x.length = ws.length := gkRule_ok_len hr
      refine ⟨[(x.map (fun t => d.inv (ndtr t)), ws)], by simp, ?_, ?_, ?_, ?_, ?_, ?_⟩
      · intro i hi
        have hi0 : i = 0 := by simpa using hi
        subst hi0
        simp only [orderAt, List.getD_cons_zero]
        rw [gk_singleton]
        show gk1 ndtr rule (PyOrder.int o) d = _
        rw [h, hns]
      · intro p hp
        rw [List.mem_singleton] at hp
        subst hp
        simpa using hxlen.symm
      · simp [hns]
      · intro r hr'
        rw [hns] at hr'
        rw [List.mem_singleton] at hr'
        subst hr'
        simp
      · simpa using hxlen.symm
      · intro j hj
        refine ⟨[j], by simp, ?_, ?_, ?_⟩
        · intro i hi
          have hi0 : i = 0 := by simpa using hi
          subst hi0
          simpa [hxlen] using hj
        · intro i hi
          have hi0 : i = 0 := by simpa using hi
          subst hi0
          rw [hns]
          simp
        · rw [show List.range [d].length = [0] from rfl]
          simp
    · exact absurd (by simp) hlen

/-- Witness for C1: a concrete two-dimensional call, both dimensions at
level 0 (size-1 rules), with identity transform. -/
theorem gk_multivariate_shape_witness :
    ∃ rules : List (List RS × List ℚ),
      rules.length = ([dId, dId] : List (Dist RS RS)).length ∧
      (∀ i (hi : i < ([dId, dId] : List (Dist RS RS)).length),
        gk (fun r => r) 24 (orderAt (.int 0) i)
            [([dId, dId] : List (Dist RS RS)).get ⟨i, hi⟩]
          = .ok ([(rules.getD i ([], [])).1], (rules.getD i ([], [])).2)) ∧
      (∀ p ∈ rules, p.2.length = p.1.length) ∧
      ([[(⟨0, 0⟩ : RS)], [⟨0, 0⟩]] : List (List RS)).length
        = ([dId, dId] : List (Dist RS RS)).length ∧
      (∀ r ∈ ([[(⟨0, 0⟩ : RS)], [⟨0, 0⟩]] : List (List RS)),
        r.length = (rules.map (fun p => p.1.length)).prod) ∧
      ([(1 : ℚ)]).length = (rules.map (fun p => p.1.length)).prod ∧
      (∀ j, j < ([(1 : ℚ)]).length →
        ∃ t : List ℕ, t.length = ([dId, dId] : List (Dist RS RS)).length ∧
          (∀ i, i < ([dId, dId] : List (Dist RS RS)).length →
            t.getD i 0 < (rules.getD i ([], [])).1.length) ∧
          (∀ i, i < ([dId, dId] : List (Dist RS RS)).length →
            (([[(⟨0, 0⟩ : RS)], [⟨0, 0⟩]] : List (List RS)).getD i []).getD j ⟨0, 0⟩
              = ((rules.getD i ([], [])).1).getD (t.getD i 0) ⟨0, 0⟩) ∧
          ([(1 : ℚ)]).getD j 0
            = ((List.range ([dId, dId] : List (Dist RS RS)).length).map
              (fun i => ((rules.getD i ([], [])).2).getD (t.getD i 0) 0)).prod) :=
  gk_multivariate_shape (fun r => r) 24 (.int 0) [dId, dId]
    [[⟨0, 0⟩], [⟨0, 0⟩]] [1] ⟨0, 0⟩ (by with_unfolding_all exact rfl) (by simp)

/-! ### Soundness of the `RS` representation -/

/-- The representation `⟨a, b⟩ ↦ a + b·√2` is injective (by irrationality
of `√2`), so equality, membership and multiset comparisons computed on
`RS` agree with the corresponding comparisons of the real numbers the
code manipulates. -/
theorem RS.repr_injective :
    Function.Injective (fun r : RS => (r.a : ℝ) + (r.b : ℝ) * Real.sqrt 2) := by
  intro r s h
  simp only at h
  by_cases hb : r.b = s.b
  · have ha : (r.a : ℝ) = s.a := by
      rw [hb] at h
      linarith
    have ha' : r.a = s.a := by exact_mod_cast ha
    obtain ⟨a, b⟩ := r
    obtain ⟨c, e⟩ := s
    simp only at hb ha'
    rw [hb, ha']
  · exfalso
    have hbne : ((s.b : ℝ) - r.b) ≠ 0 := by
      intro h0
      apply hb
      have : (r.b : ℝ) = s.b := by linarith
      exact_mod_cast this
    have hs : Real.sqrt 2 = (((r.a - s.a) / (s.b - r.b) : ℚ) : ℝ) := by
      push_cast
      field_simp
      linarith
    exact irrational_sqrt_two ⟨(r.a - s.a) / (s.b - r.b), hs.symm⟩
